import Mathlib

/-!
# Verification of `utils/utils.cpp`

A shallow embedding of the two algorithmic functions of the file:

* `loadDDSTexture` (lines 71-160): the DDS container loader.  The operating
  system and the GL driver are made explicit: the environment says whether
  `open`, `fstat` and `mmap` succeed, what the bytes of the file are and which
  texture name `glGenTextures` writes; the result records the returned
  boolean, the final value of `*texturePtr`, the GL calls issued in order and
  the diagnostic printed on a failure path.  `unsigned int` arithmetic is
  arithmetic on `Nat` reduced modulo `2 ^ 32` after every operation.
* `flipTexture` (lines 16-28): the in-place vertical flip.  `int` arithmetic
  is checked: a value outside the `int` range (undefined behaviour in C++)
  and a buffer access outside the buffer both make the model return `none`.
-/

namespace Utils

/-! ## Constants -/

/-- The `#define DDS_HEADER_SIZE 128` of line 65. -/
def DDS_HEADER_SIZE : Nat := 128
/-- The `#define DDS_SIGNATURE 0x20534444` of line 66, the bytes "DDS ". -/
def DDS_SIGNATURE : Nat := 0x20534444
/-- The `#define FORMAT_CODE_DXT1` of line 67. -/
def FORMAT_CODE_DXT1 : Nat := 0x31545844
/-- The `#define FORMAT_CODE_DXT3` of line 68. -/
def FORMAT_CODE_DXT3 : Nat := 0x33545844
/-- The `#define FORMAT_CODE_DXT5` of line 69. -/
def FORMAT_CODE_DXT5 : Nat := 0x35545844

/-- The value of the GL enumerant in `GL/glext.h` (a system header). -/
def GL_COMPRESSED_RGBA_S3TC_DXT1_EXT : Nat := 0x83F1
/-- The value of the GL enumerant in `GL/glext.h` (a system header). -/
def GL_COMPRESSED_RGBA_S3TC_DXT3_EXT : Nat := 0x83F2
/-- The value of the GL enumerant in `GL/glext.h` (a system header). -/
def GL_COMPRESSED_RGBA_S3TC_DXT5_EXT : Nat := 0x83F3
/-- The value of the GL enumerant in `GL/gl.h` (a system header). -/
def GL_TEXTURE_2D : Nat := 0x0DE1
/-- The value of the GL enumerant in `GL/gl.h` (a system header). -/
def GL_UNPACK_ALIGNMENT : Nat := 0x0CF5

/-- The number of values of an `unsigned int`: its arithmetic is modulo this. -/
def UINT_MOD : Nat := 4294967296

/-! ## The DDS loader -/

/-- One call into the GL driver, with the arguments the loader passes.  The
data pointer `dataPtr + offset` of `glCompressedTexImage2D` is recorded as
`offset`; `level`, `width`, `height` and `size` are the `unsigned int` values
held by the loop. -/
inductive GLCall where
  | genTextures (name : Nat)
  | bindTexture (target name : Nat)
  | pixelStorei (pname param : Nat)
  | compressedTexImage2D (target level format width height border size offset : Nat)
  deriving DecidableEq

/-- The diagnostic printed on each failure path of `loadDDSTexture`, with the
values it reports. -/
inductive LoadError where
  | openFailed
  | fstatFailed
  | tooSmall (fsize : Nat)
  | mmapFailed
  | invalidSignature (signature : Nat)
  | unknownFormat (formatCode : Nat)
  | truncated (fsize level offset size : Nat)
  deriving DecidableEq

/-- What a call of `loadDDSTexture` leaves behind: the returned boolean, the
value of `*texturePtr`, the GL calls in the order issued, and the diagnostic of
the failure path taken (none on success). -/
structure LoadResult where
  ok : Bool
  texture : Nat
  calls : List GLCall
  error : Option LoadError
  deriving DecidableEq

/-- The world `loadDDSTexture` runs in: whether `open`, `fstat` and `mmap`
succeed, the bytes of the file (`st.st_size` is their number), and the
texture name `glGenTextures` stores into `*texturePtr`. -/
structure DDSEnv where
  openOk : Bool
  fstatOk : Bool
  mmapOk : Bool
  file : List UInt8
  newTexture : Nat

/-- The read `*(unsigned int*)&(dataPtr[off])` of lines 104-108 on a
little-endian host.  The four bytes must lie inside the mapping. -/
def readU32 (dataPtr : List UInt8) (off : Nat) (h : off + 4 ≤ dataPtr.length) : Nat :=
  dataPtr[off].toNat + 256 * dataPtr[off + 1].toNat + 65536 * dataPtr[off + 2].toNat
    + 16777216 * dataPtr[off + 3].toNat

/-- The `switch(formatCode)` of lines 117-132: the GL format of a recognised
code, none in the `default` branch. -/
def formatOf (formatCode : Nat) : Option Nat :=
  if formatCode = FORMAT_CODE_DXT1 then some GL_COMPRESSED_RGBA_S3TC_DXT1_EXT
  else if formatCode = FORMAT_CODE_DXT3 then some GL_COMPRESSED_RGBA_S3TC_DXT3_EXT
  else if formatCode = FORMAT_CODE_DXT5 then some GL_COMPRESSED_RGBA_S3TC_DXT5_EXT
  else none

/-- Line 138: `(format == GL_COMPRESSED_RGBA_S3TC_DXT1_EXT) ? 8 : 16`. -/
def blockSizeOf (format : Nat) : Nat :=
  if format = GL_COMPRESSED_RGBA_S3TC_DXT1_EXT then 8 else 16

/-- Line 144: `((width+3)/4)*((height+3)/4)*blockSize` in `unsigned int`
arithmetic: each sum and product is reduced modulo `2 ^ 32`. -/
def levelSize (width height blockSize : Nat) : Nat :=
  ((((width + 3) % UINT_MOD / 4) * ((height + 3) % UINT_MOD / 4)) % UINT_MOD * blockSize)
    % UINT_MOD

/-- Lines 153-154: `x > 1 ? x >> 1 : 1`. -/
def halve (x : Nat) : Nat := if x > 1 then x / 2 else 1

/-- The `for` loop of lines 142-156.  `remaining` is `mipMapNumber - level`,
the number of iterations still allowed by the loop condition.  The result is
the uploads issued, in order, and the diagnostic of line 146 if the loop
returned false. -/
def mipLoop (fsize format blockSize : Nat) :
    (remaining level width height offset : Nat) → List GLCall × Option LoadError
  | 0, _, _, _, _ => ([], none)
  | remaining + 1, level, width, height, offset =>
    let size := levelSize width height blockSize
    if fsize < (offset + size) % UINT_MOD then
      ([], some (LoadError.truncated fsize level offset size))
    else
      let rest := mipLoop fsize format blockSize remaining (level + 1) (halve width)
        (halve height) ((offset + size) % UINT_MOD)
      (GLCall.compressedTexImage2D GL_TEXTURE_2D level format width height 0 size offset
        :: rest.1, rest.2)

/-- A failure return before `glGenTextures`: `*texturePtr` still holds the 0
written by line 72 and no GL call has been made. -/
def failEarly (e : LoadError) : LoadResult :=
  { ok := false, texture := 0, calls := [], error := some e }

/-- Lines 110-159 of `loadDDSTexture`: everything after the five header
fields have been read. -/
def loadParsed (newTexture fsize signature height width mipMapNumber formatCode : Nat) :
    LoadResult :=
  if signature ≠ DDS_SIGNATURE then failEarly (LoadError.invalidSignature signature)
  else
    match formatOf formatCode with
    | none => failEarly (LoadError.unknownFormat formatCode)
    | some format =>
      let setup := [GLCall.genTextures newTexture, GLCall.bindTexture GL_TEXTURE_2D newTexture,
        GLCall.pixelStorei GL_UNPACK_ALIGNMENT 1]
      let blockSize := blockSizeOf format
      let loop := mipLoop fsize format blockSize mipMapNumber 0 width height DDS_HEADER_SIZE
      match loop.2 with
      | some e => { ok := false, texture := newTexture, calls := setup ++ loop.1, error := some e }
      | none =>
        { ok := true, texture := newTexture,
          calls := setup ++ loop.1 ++ [GLCall.bindTexture GL_TEXTURE_2D 0], error := none }

/-- The function `loadDDSTexture` of lines 71-160. -/
def loadDDSTexture (env : DDSEnv) : LoadResult :=
  if env.openOk = false then failEarly LoadError.openFailed
  else if env.fstatOk = false then failEarly LoadError.fstatFailed
  else
    let fsize := env.file.length
    if h : fsize < DDS_HEADER_SIZE then failEarly (LoadError.tooSmall fsize)
    else if env.mmapOk = false then failEarly LoadError.mmapFailed
    else
      have hlen : 128 ≤ env.file.length := by
        simp only [DDS_HEADER_SIZE] at h
        omega
      let signature := readU32 env.file 0 (by omega)
      let height := readU32 env.file 12 (by omega)
      let width := readU32 env.file 16 (by omega)
      let mipMapNumber := readU32 env.file 28 (by omega)
      let formatCode := readU32 env.file 84 (by omega)
      loadParsed env.newTexture fsize signature height width mipMapNumber formatCode

/-! ### The loader in exact arithmetic

The specification speaks of `ceil(width/4) * ceil(height/4) * blockSize` and of
sums of level sizes as natural numbers.  These definitions follow those words;
the theorems compare them with the loop above. -/

/-- The least number of 4-pixel blocks covering `x` pixels: `ceil(x/4)`. -/
def ceilDiv4 (x : Nat) : Nat := (x + 3) / 4

/-- The specified payload size of a level: `ceil(width/4) * ceil(height/4) *
blockSize` as a natural number. -/
def exactSize (width height blockSize : Nat) : Nat :=
  ceilDiv4 width * ceilDiv4 height * blockSize

/-- The width (or height) held at level `k` when the base level has `x`. -/
def dimAt (x k : Nat) : Nat := halve^[k] x

/-- The specified offset of level `k`: 128 plus the sizes of the levels before
it, as a natural number. -/
def exactOffset (width height blockSize : Nat) : Nat → Nat
  | 0 => DDS_HEADER_SIZE
  | k + 1 => exactOffset width height blockSize k
      + exactSize (dimAt width k) (dimAt height k) blockSize

/-- The specified upload of level `k` of a texture with base size `width` x
`height`. -/
def exactUpload (format blockSize width height k : Nat) : GLCall :=
  GLCall.compressedTexImage2D GL_TEXTURE_2D k format (dimAt width k) (dimAt height k) 0
    (exactSize (dimAt width k) (dimAt height k) blockSize) (exactOffset width height blockSize k)

/-- The specified uploads of levels `0 .. n-1`, in order. -/
def exactUploads (format blockSize width height n : Nat) : List GLCall :=
  (List.range n).map (exactUpload format blockSize width height)

/-- The `(width, height)` pairs of the compressed uploads among `calls`, in
order: the per-level dimension sequence of a run. -/
def uploadDims : List GLCall → List (Nat × Nat)
  | [] => []
  | GLCall.compressedTexImage2D _ _ _ width height _ _ _ :: rest =>
    (width, height) :: uploadDims rest
  | _ :: rest => uploadDims rest

/-- The compressed uploads among `calls`, in order. -/
def uploadsOf (calls : List GLCall) : List GLCall :=
  calls.filter fun c =>
    match c with
    | GLCall.compressedTexImage2D _ _ _ _ _ _ _ _ => true
    | _ => false

/-- Whether a compressed upload reads only bytes of a file of `fsize` bytes:
its range `[offset, offset + size)` ends at or before `fsize`.  Other calls
read nothing. -/
def readsInside (fsize : Nat) : GLCall → Bool
  | GLCall.compressedTexImage2D _ _ _ _ _ _ size offset => decide (offset + size ≤ fsize)
  | _ => true

/-! ### Test inputs -/

/-- Byte `i` (0 the least significant) of the little-endian encoding of `v`. -/
def leByte (v i : Nat) : UInt8 := UInt8.ofNat (v / 256 ^ i % 256)

/-- Byte `i` of a DDS header holding the five fields the loader reads at
their offsets (0, 12, 16, 28, 84) and zero everywhere else. -/
def headerByte (signature height width mipMapNumber formatCode i : Nat) : UInt8 :=
  if i < 4 then leByte signature i
  else if 12 ≤ i ∧ i < 16 then leByte height (i - 12)
  else if 16 ≤ i ∧ i < 20 then leByte width (i - 16)
  else if 28 ≤ i ∧ i < 32 then leByte mipMapNumber (i - 28)
  else if 84 ≤ i ∧ i < 88 then leByte formatCode (i - 84)
  else 0

/-- The 128-byte DDS header with the given fields. -/
def ddsHeader (signature height width mipMapNumber formatCode : Nat) : List UInt8 :=
  (List.range 128).map (headerByte signature height width mipMapNumber formatCode)

/-- An environment in which `open`, `fstat` and `mmap` succeed and
`glGenTextures` hands out the name 1. -/
def envOf (file : List UInt8) : DDSEnv :=
  { openOk := true, fstatOk := true, mmapOk := true, file := file, newTexture := 1 }

/-! ## The vertical flip -/

/-- The largest `int`. -/
def INT_MAX : Int := 2147483647
/-- The smallest `int`. -/
def INT_MIN : Int := -2147483648

/-- The result of an `int` operation: a value outside the range of `int` is
undefined behaviour and gives `none`. -/
def checkedInt (x : Int) : Option Int :=
  if INT_MIN ≤ x ∧ x ≤ INT_MAX then some x else none

/-- Lines 22-24: `t = d[offset1]; d[offset1] = d[offset2]; d[offset2] = t`.
An access outside the buffer gives `none`. -/
def swapBytes (textureData : List UInt8) (offset1 offset2 : Int) : Option (List UInt8) :=
  if offset1 < 0 ∨ offset2 < 0 then none
  else
    match textureData[offset1.toNat]?, textureData[offset2.toNat]? with
    | some t, some u => some ((textureData.set offset1.toNat u).set offset2.toNat t)
    | _, _ => none

/-- Lines 20-24, the body of the innermost loop at counters `h`, `w`, `i`. -/
def flipBody (width height n : Int) (h w i : Nat) (textureData : List UInt8) :
    Option (List UInt8) := do
  let hw ← checkedInt (h * width)
  let hww ← checkedInt (hw + w)
  let hwwn ← checkedInt (hww * n)
  let offset1 ← checkedInt (hwwn + i)
  let r ← checkedInt (height - h)
  let r1 ← checkedInt (r - 1)
  let rw ← checkedInt (r1 * width)
  let rww ← checkedInt (rw + w)
  let rwwn ← checkedInt (rww * n)
  let offset2 ← checkedInt (rwwn + i)
  swapBytes textureData offset1 offset2

/-- The function `flipTexture` of lines 16-28.  Each `for` loop runs its
counter from 0 up to its bound, which the body does not change; `height/2`
is the truncating division of C++. -/
def flipTexture (textureData : List UInt8) (width height n : Int) : Option (List UInt8) :=
  (List.range (Int.tdiv height 2).toNat).foldlM (fun d h =>
    (List.range width.toNat).foldlM (fun d w =>
      (List.range n.toNat).foldlM (fun d i => flipBody width height n h w i d) d) d)
    textureData

/-- The index of the byte that the flip of a `width` x `height` image with
`n` bytes per pixel brings to index `p`: same column and channel, row
`height - 1 - row`. -/
def mirrorIndex (width height n p : Nat) : Nat :=
  (height - 1 - p / (width * n)) * (width * n) + p % (width * n)

/-- The state of the buffer after the first `done` swaps of a flip of
`original`: the positions below `done` and their mirror images are exchanged,
the rest is as in `original`. -/
def FlipInv (mirror : Nat → Nat) (original : List UInt8) (done : Nat)
    (current : List UInt8) : Prop :=
  current.length = original.length
  ∧ ∀ p, p < original.length →
      current[p]? = if p < done ∨ mirror p < done then original[mirror p]? else original[p]?

end Utils

open Utils

set_option maxRecDepth 100000

/-! ## Reading the header -/

theorem readU32_lt (d : List UInt8) (off : Nat) (h : off + 4 ≤ d.length) :
    readU32 d off h < UINT_MOD := by
  unfold readU32 UINT_MOD
  have h0 := UInt8.toNat_lt d[off]
  have h1 := UInt8.toNat_lt d[off + 1]
  have h2 := UInt8.toNat_lt d[off + 2]
  have h3 := UInt8.toNat_lt d[off + 3]
  omega

theorem readU32_append (a b : List UInt8) (off : Nat) (h : off + 4 ≤ a.length)
    (h2 : off + 4 ≤ (a ++ b).length) : readU32 (a ++ b) off h2 = readU32 a off h := by
  unfold readU32
  have e0 : (a ++ b)[off] = a[off] := List.getElem_append_left (by omega)
  have e1 : (a ++ b)[off + 1] = a[off + 1] := List.getElem_append_left (by omega)
  have e2 : (a ++ b)[off + 2] = a[off + 2] := List.getElem_append_left (by omega)
  have e3 : (a ++ b)[off + 3] = a[off + 3] := List.getElem_append_left (by omega)
  rw [e0, e1, e2, e3]

theorem ddsHeader_length (s h w m f : Nat) : (ddsHeader s h w m f).length = 128 := by
  simp [ddsHeader]

theorem leByte_toNat (v i : Nat) : (leByte v i).toNat = v / 256 ^ i % 256 := by
  have := UInt8.toNat_ofNat (v / 256 ^ i % 256)
  simp only [UInt8.size] at this
  show (OfNat.ofNat (v / 256 ^ i % 256) : UInt8).toNat = v / 256 ^ i % 256
  omega

theorem le32_value (v : Nat) (hv : v < UINT_MOD) :
    v / 256 ^ 0 % 256 + 256 * (v / 256 ^ 1 % 256) + 65536 * (v / 256 ^ 2 % 256)
      + 16777216 * (v / 256 ^ 3 % 256) = v := by
  unfold UINT_MOD at hv
  norm_num
  omega

theorem ddsHeader_getElem (s h w m f i : Nat) (hi : i < (ddsHeader s h w m f).length) :
    (ddsHeader s h w m f)[i] = headerByte s h w m f i := by
  simp [ddsHeader]

theorem readU32_ddsHeader (s h w m f : Nat) (hs : s < UINT_MOD) (hh : h < UINT_MOD)
    (hw : w < UINT_MOD) (hm : m < UINT_MOD) (hf : f < UINT_MOD) :
    readU32 (ddsHeader s h w m f) 0 (by rw [ddsHeader_length]; omega) = s
    ∧ readU32 (ddsHeader s h w m f) 12 (by rw [ddsHeader_length]; omega) = h
    ∧ readU32 (ddsHeader s h w m f) 16 (by rw [ddsHeader_length]; omega) = w
    ∧ readU32 (ddsHeader s h w m f) 28 (by rw [ddsHeader_length]; omega) = m
    ∧ readU32 (ddsHeader s h w m f) 84 (by rw [ddsHeader_length]; omega) = f := by
  refine ⟨?_, ?_, ?_, ?_, ?_⟩
  · have e := le32_value s hs
    simp only [readU32, ddsHeader_getElem, headerByte]
    simp only [pow_zero, pow_one, Nat.div_one] at e
    simpa [leByte_toNat] using e
  · have e := le32_value h hh
    simp only [readU32, ddsHeader_getElem, headerByte]
    simp only [pow_zero, pow_one, Nat.div_one] at e
    simpa [leByte_toNat] using e
  · have e := le32_value w hw
    simp only [readU32, ddsHeader_getElem, headerByte]
    simp only [pow_zero, pow_one, Nat.div_one] at e
    simpa [leByte_toNat] using e
  · have e := le32_value m hm
    simp only [readU32, ddsHeader_getElem, headerByte]
    simp only [pow_zero, pow_one, Nat.div_one] at e
    simpa [leByte_toNat] using e
  · have e := le32_value f hf
    simp only [readU32, ddsHeader_getElem, headerByte]
    simp only [pow_zero, pow_one, Nat.div_one] at e
    simpa [leByte_toNat] using e

/-! ## The paths of `loadDDSTexture` -/

theorem loadDDSTexture_eq_loadParsed (env : DDSEnv) (ho : env.openOk = true)
    (hf : env.fstatOk = true) (hm : env.mmapOk = true) (hlen : 128 ≤ env.file.length) :
    loadDDSTexture env = loadParsed env.newTexture env.file.length
      (readU32 env.file 0 (by omega)) (readU32 env.file 12 (by omega))
      (readU32 env.file 16 (by omega)) (readU32 env.file 28 (by omega))
      (readU32 env.file 84 (by omega)) := by
  unfold loadDDSTexture
  have hn : ¬ env.file.length < DDS_HEADER_SIZE := by
    simp only [DDS_HEADER_SIZE]; omega
  simp [ho, hf, hm, hn]

/-- The same with the length and the decoded fields named. -/
theorem loadDDSTexture_of_fields (env : DDSEnv) (ho : env.openOk = true)
    (hf : env.fstatOk = true) (hm : env.mmapOk = true) (hlen : 128 ≤ env.file.length)
    (n s h w m f : Nat) (hn : env.file.length = n)
    (h0 : readU32 env.file 0 (by omega) = s) (h12 : readU32 env.file 12 (by omega) = h)
    (h16 : readU32 env.file 16 (by omega) = w) (h28 : readU32 env.file 28 (by omega) = m)
    (h84 : readU32 env.file 84 (by omega) = f) :
    loadDDSTexture env = loadParsed env.newTexture n s h w m f := by
  subst hn h0 h12 h16 h28 h84
  exact loadDDSTexture_eq_loadParsed env ho hf hm hlen

theorem loadDDSTexture_open_failed (env : DDSEnv) (ho : env.openOk = false) :
    loadDDSTexture env = failEarly LoadError.openFailed := by
  unfold loadDDSTexture
  rw [if_pos ho]

theorem loadDDSTexture_fstat_failed (env : DDSEnv) (ho : env.openOk = true)
    (hf : env.fstatOk = false) : loadDDSTexture env = failEarly LoadError.fstatFailed := by
  unfold loadDDSTexture
  rw [if_neg (by simp [ho]), if_pos hf]

theorem loadDDSTexture_mmap_failed (env : DDSEnv) (ho : env.openOk = true)
    (hf : env.fstatOk = true) (hm : env.mmapOk = false) (hlen : 128 ≤ env.file.length) :
    loadDDSTexture env = failEarly LoadError.mmapFailed := by
  have hn : ¬ env.file.length < DDS_HEADER_SIZE := by
    simp only [DDS_HEADER_SIZE]; omega
  unfold loadDDSTexture
  rw [if_neg (by simp [ho]), if_neg (by simp [hf])]
  simp only [hn, hm, dite_false, if_true]

/-- Either the loader stops at one of the system-call checks, or it runs
`loadParsed` on the five header fields. -/
theorem loadDDSTexture_cases (env : DDSEnv) (hlen : 128 ≤ env.file.length) :
    loadDDSTexture env = failEarly LoadError.openFailed
    ∨ loadDDSTexture env = failEarly LoadError.fstatFailed
    ∨ loadDDSTexture env = failEarly LoadError.mmapFailed
    ∨ loadDDSTexture env = loadParsed env.newTexture env.file.length
      (readU32 env.file 0 (by omega)) (readU32 env.file 12 (by omega))
      (readU32 env.file 16 (by omega)) (readU32 env.file 28 (by omega))
      (readU32 env.file 84 (by omega)) := by
  rcases Bool.eq_false_or_eq_true env.openOk with ho | ho
  swap
  · exact Or.inl (loadDDSTexture_open_failed env ho)
  rcases Bool.eq_false_or_eq_true env.fstatOk with hf | hf
  swap
  · exact Or.inr (Or.inl (loadDDSTexture_fstat_failed env ho hf))
  rcases Bool.eq_false_or_eq_true env.mmapOk with hm | hm
  swap
  · exact Or.inr (Or.inr (Or.inl (loadDDSTexture_mmap_failed env ho hf hm hlen)))
  exact Or.inr (Or.inr (Or.inr (loadDDSTexture_eq_loadParsed env ho hf hm hlen)))

theorem loadParsed_bad_signature (t fsize s h w m f : Nat) (hs : s ≠ DDS_SIGNATURE) :
    loadParsed t fsize s h w m f = failEarly (LoadError.invalidSignature s) := by
  unfold loadParsed
  rw [if_pos hs]

theorem loadParsed_unknown_format (t fsize s h w m f : Nat) (hs : s = DDS_SIGNATURE)
    (hf : formatOf f = none) :
    loadParsed t fsize s h w m f = failEarly (LoadError.unknownFormat f) := by
  unfold loadParsed
  rw [if_neg (by simp [hs])]
  simp only [hf]

theorem loadParsed_loop_failed (t fsize s h w m f format : Nat) (e : LoadError)
    (hs : s = DDS_SIGNATURE) (hf : formatOf f = some format)
    (hl : (mipLoop fsize format (blockSizeOf format) m 0 w h DDS_HEADER_SIZE).2 = some e) :
    loadParsed t fsize s h w m f =
      { ok := false, texture := t,
        calls := [GLCall.genTextures t, GLCall.bindTexture GL_TEXTURE_2D t,
          GLCall.pixelStorei GL_UNPACK_ALIGNMENT 1]
          ++ (mipLoop fsize format (blockSizeOf format) m 0 w h DDS_HEADER_SIZE).1,
        error := some e } := by
  unfold loadParsed
  rw [if_neg (by simp [hs])]
  simp only [hf, hl]

theorem loadParsed_loop_done (t fsize s h w m f format : Nat)
    (hs : s = DDS_SIGNATURE) (hf : formatOf f = some format)
    (hl : (mipLoop fsize format (blockSizeOf format) m 0 w h DDS_HEADER_SIZE).2 = none) :
    loadParsed t fsize s h w m f =
      { ok := true, texture := t,
        calls := [GLCall.genTextures t, GLCall.bindTexture GL_TEXTURE_2D t,
          GLCall.pixelStorei GL_UNPACK_ALIGNMENT 1]
          ++ (mipLoop fsize format (blockSizeOf format) m 0 w h DDS_HEADER_SIZE).1
          ++ [GLCall.bindTexture GL_TEXTURE_2D 0],
        error := none } := by
  unfold loadParsed
  rw [if_neg (by simp [hs])]
  simp only [hf, hl]

/-- The texture name handed out by the driver influences neither the returned
boolean, nor the diagnostic, nor the uploads. -/
theorem loadParsed_texture_irrelevant (t1 t2 fsize s h w m f : Nat) :
    (loadParsed t1 fsize s h w m f).ok = (loadParsed t2 fsize s h w m f).ok
    ∧ (loadParsed t1 fsize s h w m f).error = (loadParsed t2 fsize s h w m f).error
    ∧ uploadsOf (loadParsed t1 fsize s h w m f).calls
        = uploadsOf (loadParsed t2 fsize s h w m f).calls := by
  by_cases hs : s = DDS_SIGNATURE
  swap
  · rw [loadParsed_bad_signature t1 _ _ _ _ _ _ hs, loadParsed_bad_signature t2 _ _ _ _ _ _ hs]
    exact ⟨rfl, rfl, rfl⟩
  cases hf : formatOf f with
  | none =>
    rw [loadParsed_unknown_format t1 _ _ _ _ _ _ hs hf,
      loadParsed_unknown_format t2 _ _ _ _ _ _ hs hf]
    exact ⟨rfl, rfl, rfl⟩
  | some format =>
    cases hl : (mipLoop fsize format (blockSizeOf format) m 0 w h DDS_HEADER_SIZE).2 with
    | none =>
      rw [loadParsed_loop_done t1 _ _ _ _ _ _ _ hs hf hl,
        loadParsed_loop_done t2 _ _ _ _ _ _ _ hs hf hl]
      refine ⟨rfl, rfl, ?_⟩
      simp [uploadsOf]
    | some e =>
      rw [loadParsed_loop_failed t1 _ _ _ _ _ _ _ e hs hf hl,
        loadParsed_loop_failed t2 _ _ _ _ _ _ _ e hs hf hl]
      refine ⟨rfl, rfl, ?_⟩
      simp [uploadsOf]

/-- A file made of a header and a payload, in the environment `envOf`, is
loaded as `loadParsed` on the header's fields and the total length. -/
theorem loadDDSTexture_ddsFile (s h w m f : Nat) (payload : List UInt8) (hs : s < UINT_MOD)
    (hh : h < UINT_MOD) (hw : w < UINT_MOD) (hm : m < UINT_MOD) (hf : f < UINT_MOD) :
    loadDDSTexture (envOf (ddsHeader s h w m f ++ payload))
      = loadParsed 1 (128 + payload.length) s h w m f := by
  have hl : (ddsHeader s h w m f ++ payload).length = 128 + payload.length := by
    rw [List.length_append, ddsHeader_length]
  have hge : 128 ≤ (envOf (ddsHeader s h w m f ++ payload)).file.length := by
    show 128 ≤ (ddsHeader s h w m f ++ payload).length
    omega
  rw [loadDDSTexture_eq_loadParsed _ rfl rfl rfl hge]
  obtain ⟨e0, e1, e2, e3, e4⟩ := readU32_ddsHeader s h w m f hs hh hw hm hf
  show loadParsed 1 (ddsHeader s h w m f ++ payload).length
    (readU32 (ddsHeader s h w m f ++ payload) 0 _) (readU32 (ddsHeader s h w m f ++ payload) 12 _)
    (readU32 (ddsHeader s h w m f ++ payload) 16 _) (readU32 (ddsHeader s h w m f ++ payload) 28 _)
    (readU32 (ddsHeader s h w m f ++ payload) 84 _) = _
  rw [readU32_append _ _ 0 (by rw [ddsHeader_length]; omega),
    readU32_append _ _ 12 (by rw [ddsHeader_length]; omega),
    readU32_append _ _ 16 (by rw [ddsHeader_length]; omega),
    readU32_append _ _ 28 (by rw [ddsHeader_length]; omega),
    readU32_append _ _ 84 (by rw [ddsHeader_length]; omega), e0, e1, e2, e3, e4, hl]

/-! ## Failure before any GL call -/

/-- A file shorter than the header never reaches a GL call. -/
theorem loadDDSTexture_short_paths (env : DDSEnv) (h : env.file.length < 128) :
    (loadDDSTexture env).texture = 0 ∧ (loadDDSTexture env).calls = [] := by
  have hn : env.file.length < DDS_HEADER_SIZE := h
  unfold loadDDSTexture
  by_cases ho : env.openOk = false
  · simp [ho, failEarly]
  · by_cases hf : env.fstatOk = false
    · simp [ho, hf, failEarly]
    · simp [ho, hf, hn, failEarly]

/-- C5: a file shorter than 128 bytes is rejected with the handle 0 and no GL
call, whatever its bytes are; when `open` and `fstat` succeed the path taken is
the size check of line 90, which comes before the mapping and before every
read of a header field, and its result depends on the length only. -/
theorem loadDDSTexture_short_file (env : DDSEnv) (h : env.file.length < 128) :
    (loadDDSTexture env).ok = false ∧ (loadDDSTexture env).texture = 0
      ∧ (loadDDSTexture env).calls = []
      ∧ (env.openOk = true → env.fstatOk = true →
          loadDDSTexture env = failEarly (LoadError.tooSmall env.file.length)) := by
  have hn : env.file.length < DDS_HEADER_SIZE := h
  unfold loadDDSTexture
  by_cases ho : env.openOk = false
  · simp [ho, failEarly]
  · by_cases hf : env.fstatOk = false
    · simp [ho, hf, failEarly]
    · simp [ho, hf, hn, failEarly]

/-- Witness of C5 on a 100-byte file that starts with a valid signature. -/
theorem loadDDSTexture_short_file_witness :
    ((ddsHeader DDS_SIGNATURE 4 4 1 FORMAT_CODE_DXT1).take 100).length < 128 ∧
    loadDDSTexture (envOf ((ddsHeader DDS_SIGNATURE 4 4 1 FORMAT_CODE_DXT1).take 100))
      = failEarly (LoadError.tooSmall 100) :=
  ⟨by decide,
   (loadDDSTexture_short_file (envOf ((ddsHeader DDS_SIGNATURE 4 4 1 FORMAT_CODE_DXT1).take 100))
      (by decide)).2.2.2 rfl rfl⟩

/-- C6: a file of at least 128 bytes whose first four bytes, read as a
little-endian 32-bit value, are not 0x20534444 is rejected with the handle 0
and no GL call, whatever the rest of the file is. -/
theorem loadDDSTexture_bad_signature (env : DDSEnv) (hlen : 128 ≤ env.file.length)
    (hsig : readU32 env.file 0 (by omega) ≠ DDS_SIGNATURE) :
    (loadDDSTexture env).ok = false ∧ (loadDDSTexture env).texture = 0
      ∧ (loadDDSTexture env).calls = [] := by
  rcases loadDDSTexture_cases env hlen with e | e | e | e
  · rw [e]; exact ⟨rfl, rfl, rfl⟩
  · rw [e]; exact ⟨rfl, rfl, rfl⟩
  · rw [e]; exact ⟨rfl, rfl, rfl⟩
  · rw [e, loadParsed_bad_signature _ _ _ _ _ _ _ hsig]
    exact ⟨rfl, rfl, rfl⟩

/-- Witness of C6: the 128-byte file of zeros is rejected. -/
theorem loadDDSTexture_bad_signature_witness :
    (loadDDSTexture (envOf (List.replicate 128 0))).ok = false
      ∧ (loadDDSTexture (envOf (List.replicate 128 0))).texture = 0
      ∧ (loadDDSTexture (envOf (List.replicate 128 0))).calls = [] :=
  loadDDSTexture_bad_signature (envOf (List.replicate 128 0)) (by decide) (by decide)

/-- C7: a file of at least 128 bytes with the right signature whose format
code at offset 84 is none of DXT1, DXT3, DXT5 is rejected with the handle 0
and no GL call (so no texture is generated), whatever width, height, mip count
and payload are. -/
theorem loadDDSTexture_unknown_format (env : DDSEnv) (hlen : 128 ≤ env.file.length)
    (hsig : readU32 env.file 0 (by omega) = DDS_SIGNATURE)
    (h1 : readU32 env.file 84 (by omega) ≠ FORMAT_CODE_DXT1)
    (h3 : readU32 env.file 84 (by omega) ≠ FORMAT_CODE_DXT3)
    (h5 : readU32 env.file 84 (by omega) ≠ FORMAT_CODE_DXT5) :
    (loadDDSTexture env).ok = false ∧ (loadDDSTexture env).texture = 0
      ∧ (loadDDSTexture env).calls = [] := by
  rcases loadDDSTexture_cases env hlen with e | e | e | e
  · rw [e]; exact ⟨rfl, rfl, rfl⟩
  · rw [e]; exact ⟨rfl, rfl, rfl⟩
  · rw [e]; exact ⟨rfl, rfl, rfl⟩
  · have hfmt : formatOf (readU32 env.file 84 (by omega)) = none := by
      unfold formatOf
      rw [if_neg h1, if_neg h3, if_neg h5]
    rw [e, loadParsed_unknown_format _ _ _ _ _ _ _ hsig hfmt]
    exact ⟨rfl, rfl, rfl⟩

/-- Witness of C7: a header with format code "DXT2" and a payload. -/
theorem loadDDSTexture_unknown_format_witness :
    (loadDDSTexture (envOf (ddsHeader DDS_SIGNATURE 4 4 1 0x32545844
        ++ List.replicate 16 0))).ok = false
      ∧ (loadDDSTexture (envOf (ddsHeader DDS_SIGNATURE 4 4 1 0x32545844
        ++ List.replicate 16 0))).texture = 0
      ∧ (loadDDSTexture (envOf (ddsHeader DDS_SIGNATURE 4 4 1 0x32545844
        ++ List.replicate 16 0))).calls = [] :=
  loadDDSTexture_unknown_format
    (envOf (ddsHeader DDS_SIGNATURE 4 4 1 0x32545844 ++ List.replicate 16 0))
    (by decide) (by decide) (by decide) (by decide) (by decide)

/-! ## The outcome is a function of the length and five header fields -/

/-- C9: two files of the same length (at least 128) whose signature, height,
width, mip count and format code fields decode to the same values, opened
under the same success of `open`, `fstat` and `mmap`, give the same returned
boolean, the same diagnostic and the same sequence of uploads (level, format,
width, height, size, offset), whatever their other bytes are; with the same
texture name handed out by the driver the whole results are equal. -/
theorem loadDDSTexture_header_only (e1 e2 : DDSEnv) (hlen : 128 ≤ e1.file.length)
    (hsame : e1.file.length = e2.file.length)
    (ho : e1.openOk = e2.openOk) (hf : e1.fstatOk = e2.fstatOk) (hm : e1.mmapOk = e2.mmapOk)
    (hsig : readU32 e1.file 0 (by omega) = readU32 e2.file 0 (by omega))
    (hhei : readU32 e1.file 12 (by omega) = readU32 e2.file 12 (by omega))
    (hwid : readU32 e1.file 16 (by omega) = readU32 e2.file 16 (by omega))
    (hmip : readU32 e1.file 28 (by omega) = readU32 e2.file 28 (by omega))
    (hfmt : readU32 e1.file 84 (by omega) = readU32 e2.file 84 (by omega)) :
    (loadDDSTexture e1).ok = (loadDDSTexture e2).ok
      ∧ (loadDDSTexture e1).error = (loadDDSTexture e2).error
      ∧ uploadsOf (loadDDSTexture e1).calls = uploadsOf (loadDDSTexture e2).calls
      ∧ (e1.newTexture = e2.newTexture → loadDDSTexture e1 = loadDDSTexture e2) := by
  have hfields := loadParsed_texture_irrelevant e1.newTexture e2.newTexture e2.file.length
    (readU32 e2.file 0 (by omega)) (readU32 e2.file 12 (by omega))
    (readU32 e2.file 16 (by omega)) (readU32 e2.file 28 (by omega))
    (readU32 e2.file 84 (by omega))
  rcases Bool.eq_false_or_eq_true e2.openOk with o | o
  swap
  · rw [loadDDSTexture_open_failed e1 (ho.trans o), loadDDSTexture_open_failed e2 o]
    exact ⟨rfl, rfl, rfl, fun _ => rfl⟩
  rcases Bool.eq_false_or_eq_true e2.fstatOk with f | f
  swap
  · rw [loadDDSTexture_fstat_failed e1 (ho.trans o) (hf.trans f),
      loadDDSTexture_fstat_failed e2 o f]
    exact ⟨rfl, rfl, rfl, fun _ => rfl⟩
  rcases Bool.eq_false_or_eq_true e2.mmapOk with m | m
  swap
  · rw [loadDDSTexture_mmap_failed e1 (ho.trans o) (hf.trans f) (hm.trans m) hlen,
      loadDDSTexture_mmap_failed e2 o f m (by omega)]
    exact ⟨rfl, rfl, rfl, fun _ => rfl⟩
  have a1 := loadDDSTexture_of_fields e1 (ho.trans o) (hf.trans f) (hm.trans m) hlen _ _ _ _ _ _
    hsame hsig hhei hwid hmip hfmt
  have a2 := loadDDSTexture_eq_loadParsed e2 o f m (by omega)
  refine ⟨?_, ?_, ?_, ?_⟩
  · exact (congrArg LoadResult.ok a1).trans (hfields.1.trans (congrArg LoadResult.ok a2).symm)
  · exact (congrArg LoadResult.error a1).trans
      (hfields.2.1.trans (congrArg LoadResult.error a2).symm)
  · exact (congrArg (fun r => uploadsOf r.calls) a1).trans
      (hfields.2.2.trans (congrArg (fun r => uploadsOf r.calls) a2).symm)
  · intro hn
    exact a1.trans ((congrArg (fun t => loadParsed t _ _ _ _ _ _) hn).trans a2.symm)

/-! ## Arithmetic of the mip loop -/

theorem halve_pos (x : Nat) : 1 ≤ halve x := by
  unfold halve
  split <;> omega

theorem halve_le (x : Nat) (hx : 1 ≤ x) : halve x ≤ x := by
  unfold halve
  split <;> omega

theorem halve_lt_mod (x : Nat) (hx : x < UINT_MOD) : halve x < UINT_MOD := by
  unfold halve UINT_MOD at *
  split <;> omega

theorem dimAt_succ (x k : Nat) : dimAt x (k + 1) = halve (dimAt x k) := by
  unfold dimAt
  exact Function.iterate_succ_apply' halve k x

theorem dimAt_lt_mod (x k : Nat) (hx : x < UINT_MOD) : dimAt x k < UINT_MOD := by
  induction k with
  | zero => exact hx
  | succ k ih => rw [dimAt_succ]; exact halve_lt_mod _ ih

/-- The number `ceilDiv4 x` is the ceiling of `x / 4`: the least `k` with `x ≤ 4 * k`. -/
theorem ceilDiv4_spec (x : Nat) : x ≤ 4 * ceilDiv4 x ∧ ∀ k, x ≤ 4 * k → ceilDiv4 x ≤ k := by
  unfold ceilDiv4
  constructor
  · omega
  · intro k hk
    omega

theorem blockSizeOf_cases (format : Nat) : blockSizeOf format = 8 ∨ blockSizeOf format = 16 := by
  unfold blockSizeOf
  split
  · exact Or.inl rfl
  · exact Or.inr rfl

/-- Where the exact size fits 32 bits, line 144 computes it. -/
theorem levelSize_eq_exactSize (w h bs : Nat) (hw : w < UINT_MOD) (hh : h < UINT_MOD)
    (hbs : bs = 8 ∨ bs = 16) (hfit : exactSize w h bs < UINT_MOD) :
    levelSize w h bs = exactSize w h bs := by
  unfold levelSize exactSize ceilDiv4 UINT_MOD at *
  have hbs8 : 8 ≤ bs := by omega
  by_cases hw3 : w + 3 < 4294967296
  · by_cases hh3 : h + 3 < 4294967296
    · rw [Nat.mod_eq_of_lt hw3, Nat.mod_eq_of_lt hh3]
      have hab : (w + 3) / 4 * ((h + 3) / 4) ≤ (w + 3) / 4 * ((h + 3) / 4) * bs :=
        Nat.le_mul_of_pos_right _ (by omega)
      have hab2 : (w + 3) / 4 * ((h + 3) / 4) < 4294967296 := by omega
      rw [Nat.mod_eq_of_lt hab2, Nat.mod_eq_of_lt hfit]
    · have ha : (w + 3) / 4 = 0 := by
        by_contra hne
        have h1 : 1 ≤ (w + 3) / 4 := by omega
        have h2 : 1073741824 ≤ (h + 3) / 4 := by omega
        have h3 : 1 * 1073741824 ≤ (w + 3) / 4 * ((h + 3) / 4) := Nat.mul_le_mul h1 h2
        have h4 : (w + 3) / 4 * ((h + 3) / 4) * 8 ≤ (w + 3) / 4 * ((h + 3) / 4) * bs :=
          Nat.mul_le_mul_left _ hbs8
        omega
      rw [Nat.mod_eq_of_lt hw3, ha]
      simp
  · have hb : (h + 3) / 4 = 0 := by
      by_contra hne
      have h1 : 1 ≤ (h + 3) / 4 := by omega
      have h2 : 1073741824 ≤ (w + 3) / 4 := by omega
      have h3 : 1073741824 * 1 ≤ (w + 3) / 4 * ((h + 3) / 4) := Nat.mul_le_mul h2 h1
      have h4 : (w + 3) / 4 * ((h + 3) / 4) * 8 ≤ (w + 3) / 4 * ((h + 3) / 4) * bs :=
        Nat.mul_le_mul_left _ hbs8
      omega
    have hb2 : (h + 3) % 4294967296 / 4 = 0 := by omega
    rw [hb, hb2]
    simp

theorem exactOffset_mono (w h bs : Nat) {j k : Nat} (hjk : j ≤ k) :
    exactOffset w h bs j ≤ exactOffset w h bs k := by
  induction k with
  | zero =>
    have : j = 0 := by omega
    rw [this]
  | succ k ih =>
    by_cases hj : j = k + 1
    · rw [hj]
    · have := ih (by omega)
      show _ ≤ exactOffset w h bs k + _
      omega

/-- The specified offset of level `k` is 128 plus the sum of the specified
sizes of the levels before it. -/
theorem exactOffset_eq_sum (w h bs k : Nat) :
    exactOffset w h bs k
      = 128 + ((List.range k).map fun j => exactSize (dimAt w j) (dimAt h j) bs).sum := by
  induction k with
  | zero => rfl
  | succ k ih =>
    rw [List.range_succ, List.map_append, List.sum_append]
    show exactOffset w h bs k + _ = _
    rw [ih]
    simp
    omega

/-! ## The mip loop on files below 4 GiB -/

theorem mipLoop_zero (fsize format bs level w h off : Nat) :
    mipLoop fsize format bs 0 level w h off = ([], none) := rfl

theorem mipLoop_succ (fsize format bs n level w h off : Nat) :
    mipLoop fsize format bs (n + 1) level w h off =
      if fsize < (off + levelSize w h bs) % UINT_MOD then
        ([], some (LoadError.truncated fsize level off (levelSize w h bs)))
      else
        (GLCall.compressedTexImage2D GL_TEXTURE_2D level format w h 0 (levelSize w h bs) off
          :: (mipLoop fsize format bs n (level + 1) (halve w) (halve h)
                ((off + levelSize w h bs) % UINT_MOD)).1,
         (mipLoop fsize format bs n (level + 1) (halve w) (halve h)
                ((off + levelSize w h bs) % UINT_MOD)).2) := rfl

/-- While the specified payload of the next `j` levels ends inside a file of
less than `2 ^ 32` bytes, the loop uploads exactly those levels as specified
and goes on with the remaining levels. -/
theorem mipLoop_exact_levels (fsize format bs w h : Nat) (hbs : bs = 8 ∨ bs = 16)
    (hfs : fsize < UINT_MOD) (hw : w < UINT_MOD) (hh : h < UINT_MOD) :
    ∀ (j n k : Nat), exactOffset w h bs (k + j) ≤ fsize →
      mipLoop fsize format bs (j + n) k (dimAt w k) (dimAt h k) (exactOffset w h bs k)
        = ((List.range' k j).map (exactUpload format bs w h)
            ++ (mipLoop fsize format bs n (k + j) (dimAt w (k + j)) (dimAt h (k + j))
                (exactOffset w h bs (k + j))).1,
           (mipLoop fsize format bs n (k + j) (dimAt w (k + j)) (dimAt h (k + j))
                (exactOffset w h bs (k + j))).2) := by
  intro j
  induction j with
  | zero =>
    intro n k _
    simp
  | succ j ih =>
    intro n k hfit
    have hstep : exactOffset w h bs (k + 1)
        = exactOffset w h bs k + exactSize (dimAt w k) (dimAt h k) bs := rfl
    have hle : exactOffset w h bs (k + 1) ≤ fsize :=
      le_trans (exactOffset_mono w h bs (by omega)) hfit
    have hsz : levelSize (dimAt w k) (dimAt h k) bs = exactSize (dimAt w k) (dimAt h k) bs :=
      levelSize_eq_exactSize _ _ _ (dimAt_lt_mod w k hw) (dimAt_lt_mod h k hh) hbs (by omega)
    have hmod : (exactOffset w h bs k + exactSize (dimAt w k) (dimAt h k) bs) % UINT_MOD
        = exactOffset w h bs (k + 1) := by
      rw [hstep]
      exact Nat.mod_eq_of_lt (by omega)
    have hrec := ih n (k + 1) (by rw [show k + 1 + j = k + (j + 1) by omega]; exact hfit)
    rw [show j + 1 + n = (j + n) + 1 by omega]
    rw [mipLoop_succ, hsz, hmod, if_neg (by omega), ← dimAt_succ, ← dimAt_succ, hrec]
    rw [show k + 1 + j = k + (j + 1) by omega]
    simp [List.range'_succ, exactUpload]

/-- With a valid signature and format, a payload of levels `0 .. m-1` that
ends inside a file of less than `2 ^ 32` bytes is uploaded as specified. -/
theorem loadParsed_wellFormed_small (t fsize s h w m f format : Nat)
    (hw : w < UINT_MOD) (hh : h < UINT_MOD) (hsmall : fsize < UINT_MOD)
    (hs : s = DDS_SIGNATURE) (hf : formatOf f = some format)
    (hfit : exactOffset w h (blockSizeOf format) m ≤ fsize) :
    loadParsed t fsize s h w m f =
      { ok := true, texture := t,
        calls := [GLCall.genTextures t, GLCall.bindTexture GL_TEXTURE_2D t,
            GLCall.pixelStorei GL_UNPACK_ALIGNMENT 1]
          ++ exactUploads format (blockSizeOf format) w h m
          ++ [GLCall.bindTexture GL_TEXTURE_2D 0],
        error := none } := by
  have hloop := mipLoop_exact_levels fsize format (blockSizeOf format) w h
    (blockSizeOf_cases format) hsmall hw hh m 0 0 (by rw [Nat.zero_add]; exact hfit)
  rw [Nat.add_zero, Nat.zero_add, mipLoop_zero, List.append_nil, ← List.range_eq_range'] at hloop
  have h1 : (mipLoop fsize format (blockSizeOf format) m 0 w h DDS_HEADER_SIZE).1
      = exactUploads format (blockSizeOf format) w h m := congrArg Prod.fst hloop
  have h2 : (mipLoop fsize format (blockSizeOf format) m 0 w h DDS_HEADER_SIZE).2 = none :=
    congrArg Prod.snd hloop
  rw [loadParsed_loop_done _ _ _ _ _ _ _ format hs hf h2, h1]

/-- With a valid signature and format, if level `k` is the first whose
specified payload ends past the end of the file, and it ends below `2 ^ 32`,
levels `0 .. k-1` are uploaded as specified and the loader then returns false,
reporting level `k`; the handle is then the generated name. -/
theorem loadParsed_truncated_small (t fsize s h w m f format k : Nat)
    (hw : w < UINT_MOD) (hh : h < UINT_MOD)
    (hs : s = DDS_SIGNATURE) (hf : formatOf f = some format) (hk : k < m)
    (hfit : exactOffset w h (blockSizeOf format) k ≤ fsize)
    (hover : fsize < exactOffset w h (blockSizeOf format) (k + 1))
    (hnowrap : exactOffset w h (blockSizeOf format) (k + 1) < UINT_MOD) :
    loadParsed t fsize s h w m f =
      { ok := false, texture := t,
        calls := [GLCall.genTextures t, GLCall.bindTexture GL_TEXTURE_2D t,
            GLCall.pixelStorei GL_UNPACK_ALIGNMENT 1]
          ++ exactUploads format (blockSizeOf format) w h k,
        error := some (LoadError.truncated fsize k (exactOffset w h (blockSizeOf format) k)
          (exactSize (dimAt w k) (dimAt h k) (blockSizeOf format))) } := by
  obtain ⟨n, hn⟩ : ∃ n, m = k + (n + 1) := ⟨m - k - 1, by omega⟩
  subst hn
  have hstep : exactOffset w h (blockSizeOf format) (k + 1)
      = exactOffset w h (blockSizeOf format) k
        + exactSize (dimAt w k) (dimAt h k) (blockSizeOf format) := rfl
  have hsz := levelSize_eq_exactSize (dimAt w k) (dimAt h k) (blockSizeOf format)
    (dimAt_lt_mod _ k hw) (dimAt_lt_mod _ k hh) (blockSizeOf_cases format) (by omega)
  have hloop := mipLoop_exact_levels fsize format (blockSizeOf format) w h
    (blockSizeOf_cases format) (by omega) hw hh k (n + 1) 0 (by rw [Nat.zero_add]; exact hfit)
  rw [Nat.zero_add, mipLoop_succ, hsz, ← hstep, Nat.mod_eq_of_lt hnowrap, if_pos hover,
    List.append_nil, ← List.range_eq_range'] at hloop
  have h1 : (mipLoop fsize format (blockSizeOf format) (k + (n + 1)) 0 w h DDS_HEADER_SIZE).1
      = exactUploads format (blockSizeOf format) w h k := congrArg Prod.fst hloop
  have h2 : (mipLoop fsize format (blockSizeOf format) (k + (n + 1)) 0 w h DDS_HEADER_SIZE).2
      = some (LoadError.truncated fsize k (exactOffset w h (blockSizeOf format) k)
          (exactSize (dimAt w k) (dimAt h k) (blockSizeOf format))) := congrArg Prod.snd hloop
  rw [loadParsed_loop_failed _ _ _ _ _ _ _ format _ hs hf h2, h1]

/-! ## The dimension sequence of a run -/

theorem uploadDims_append (a b : List GLCall) :
    uploadDims (a ++ b) = uploadDims a ++ uploadDims b := by
  induction a with
  | nil => rfl
  | cons c a ih =>
    cases c <;> simp [uploadDims, ih]

/-- The dimensions uploaded by the loop are empty or start with the current
dimensions. -/
theorem uploadDims_mipLoop_head (fsize format bs n level w h off : Nat) :
    (uploadDims (mipLoop fsize format bs n level w h off).1).head? = none
    ∨ (uploadDims (mipLoop fsize format bs n level w h off).1).head? = some (w, h) := by
  cases n with
  | zero => exact Or.inl rfl
  | succ n =>
    rw [mipLoop_succ]
    split
    · exact Or.inl rfl
    · exact Or.inr rfl

/-- From one uploaded level to the next the width does not grow when the
first width is at least 1, likewise the height, and the dimensions of every
level after the first are at least 1. -/
theorem uploadDims_mipLoop_chain (fsize format bs : Nat) :
    ∀ (n level w h off : Nat),
      (1 ≤ w → List.Chain' (fun a b : Nat × Nat => b.1 ≤ a.1)
          (uploadDims (mipLoop fsize format bs n level w h off).1))
      ∧ (1 ≤ h → List.Chain' (fun a b : Nat × Nat => b.2 ≤ a.2)
          (uploadDims (mipLoop fsize format bs n level w h off).1))
      ∧ List.Chain' (fun _ b : Nat × Nat => 1 ≤ b.1 ∧ 1 ≤ b.2)
          (uploadDims (mipLoop fsize format bs n level w h off).1) := by
  intro n
  induction n with
  | zero =>
    intro level w h off
    exact ⟨fun _ => List.chain'_nil, fun _ => List.chain'_nil, List.chain'_nil⟩
  | succ n ih =>
    intro level w h off
    rw [mipLoop_succ]
    split
    · exact ⟨fun _ => List.chain'_nil, fun _ => List.chain'_nil, List.chain'_nil⟩
    · obtain ⟨ihw, ihh, ihp⟩ := ih (level + 1) (halve w) (halve h)
        ((off + levelSize w h bs) % UINT_MOD)
      have hhead := uploadDims_mipLoop_head fsize format bs n (level + 1) (halve w) (halve h)
        ((off + levelSize w h bs) % UINT_MOD)
      refine ⟨fun hw => ?_, fun hh => ?_, ?_⟩
      · show List.Chain' _ ((w, h) :: uploadDims _)
        rw [List.chain'_cons']
        refine ⟨fun y hy => ?_, ihw (halve_pos w)⟩
        rcases hhead with e | e
        · rw [e] at hy; cases hy
        · rw [e] at hy
          cases hy
          exact halve_le w hw
      · show List.Chain' _ ((w, h) :: uploadDims _)
        rw [List.chain'_cons']
        refine ⟨fun y hy => ?_, ihh (halve_pos h)⟩
        rcases hhead with e | e
        · rw [e] at hy; cases hy
        · rw [e] at hy
          cases hy
          exact halve_le h hh
      · show List.Chain' _ ((w, h) :: uploadDims _)
        rw [List.chain'_cons']
        refine ⟨fun y hy => ?_, ihp⟩
        rcases hhead with e | e
        · rw [e] at hy; cases hy
        · rw [e] at hy
          cases hy
          exact ⟨halve_pos w, halve_pos h⟩

/-- The dimensions uploaded by `loadParsed` are those uploaded by its loop. -/
theorem uploadDims_loadParsed (t fsize s h w m f : Nat) :
    uploadDims (loadParsed t fsize s h w m f).calls = []
    ∨ ∃ format, uploadDims (loadParsed t fsize s h w m f).calls
        = uploadDims (mipLoop fsize format (blockSizeOf format) m 0 w h DDS_HEADER_SIZE).1 := by
  by_cases hs : s = DDS_SIGNATURE
  swap
  · rw [loadParsed_bad_signature t _ _ _ _ _ _ hs]
    exact Or.inl rfl
  cases hf : formatOf f with
  | none =>
    rw [loadParsed_unknown_format t _ _ _ _ _ _ hs hf]
    exact Or.inl rfl
  | some format =>
    refine Or.inr ⟨format, ?_⟩
    cases hl : (mipLoop fsize format (blockSizeOf format) m 0 w h DDS_HEADER_SIZE).2 with
    | none =>
      rw [loadParsed_loop_done t _ _ _ _ _ _ _ hs hf hl]
      simp [uploadDims_append, uploadDims]
    | some e =>
      rw [loadParsed_loop_failed t _ _ _ _ _ _ _ e hs hf hl]
      simp [uploadDims_append, uploadDims]

/-- C8 (amended): in every run of the loader on a file whose header holds
width `w` and height `h`, the widths of the uploaded levels do not grow from a
level to the next when `w` is at least 1, the heights do not when `h` is at
least 1, and the dimensions of every level after the first are at least 1
whatever `w` and `h` are; with width 10, height 6 and 4 levels the sequence is
(10,6), (5,3), (2,1), (1,1). -/
theorem loadDDSTexture_dims_chain (env : DDSEnv) (w h : Nat) (hlen : 128 ≤ env.file.length)
    (hhei : readU32 env.file 12 (by omega) = h) (hwid : readU32 env.file 16 (by omega) = w) :
    (1 ≤ w → List.Chain' (fun a b : Nat × Nat => b.1 ≤ a.1)
        (uploadDims (loadDDSTexture env).calls))
    ∧ (1 ≤ h → List.Chain' (fun a b : Nat × Nat => b.2 ≤ a.2)
        (uploadDims (loadDDSTexture env).calls))
    ∧ List.Chain' (fun _ b : Nat × Nat => 1 ≤ b.1 ∧ 1 ≤ b.2)
        (uploadDims (loadDDSTexture env).calls)
    ∧ uploadDims (loadDDSTexture (envOf (ddsHeader DDS_SIGNATURE 6 10 4 FORMAT_CODE_DXT1
        ++ List.replicate 80 0))).calls = [(10, 6), (5, 3), (2, 1), (1, 1)] := by
  have hex : uploadDims (loadDDSTexture (envOf (ddsHeader DDS_SIGNATURE 6 10 4 FORMAT_CODE_DXT1
        ++ List.replicate 80 0))).calls = [(10, 6), (5, 3), (2, 1), (1, 1)] := by
    rw [loadDDSTexture_ddsFile _ _ _ _ _ _ (by decide) (by decide) (by decide) (by decide)
      (by decide), List.length_replicate]
    decide
  have hnil : (1 ≤ w → List.Chain' (fun a b : Nat × Nat => b.1 ≤ a.1) (uploadDims []))
      ∧ (1 ≤ h → List.Chain' (fun a b : Nat × Nat => b.2 ≤ a.2) (uploadDims []))
      ∧ List.Chain' (fun _ b : Nat × Nat => 1 ≤ b.1 ∧ 1 ≤ b.2) (uploadDims []) :=
    ⟨fun _ => List.chain'_nil, fun _ => List.chain'_nil, List.chain'_nil⟩
  suffices hmain : (1 ≤ w → List.Chain' (fun a b : Nat × Nat => b.1 ≤ a.1)
        (uploadDims (loadDDSTexture env).calls))
      ∧ (1 ≤ h → List.Chain' (fun a b : Nat × Nat => b.2 ≤ a.2)
        (uploadDims (loadDDSTexture env).calls))
      ∧ List.Chain' (fun _ b : Nat × Nat => 1 ≤ b.1 ∧ 1 ≤ b.2)
        (uploadDims (loadDDSTexture env).calls) from
    ⟨hmain.1, hmain.2.1, hmain.2.2, hex⟩
  rcases loadDDSTexture_cases env hlen with e | e | e | e
  · rw [e]; exact hnil
  · rw [e]; exact hnil
  · rw [e]; exact hnil
  · have e2 : loadDDSTexture env = loadParsed env.newTexture env.file.length
        (readU32 env.file 0 (by omega)) h w (readU32 env.file 28 (by omega))
        (readU32 env.file 84 (by omega)) := by
      rw [e]
      subst hhei hwid
      rfl
    rcases uploadDims_loadParsed env.newTexture env.file.length (readU32 env.file 0 (by omega))
      h w (readU32 env.file 28 (by omega)) (readU32 env.file 84 (by omega)) with d | ⟨format, d⟩
    · rw [e2, d]; exact hnil
    · rw [e2, d]
      exact uploadDims_mipLoop_chain _ _ _ _ _ _ _ _

/-! ## The failure paths, together -/

/-- The only diagnostic of the loop is the one of line 146. -/
theorem mipLoop_error_truncated (fsize format bs : Nat) :
    ∀ (n level w h off : Nat) (e : LoadError),
      (mipLoop fsize format bs n level w h off).2 = some e →
      ∃ l o s, e = LoadError.truncated fsize l o s := by
  intro n
  induction n with
  | zero =>
    intro level w h off e he
    rw [mipLoop_zero] at he
    cases he
  | succ n ih =>
    intro level w h off e he
    rw [mipLoop_succ] at he
    split at he
    · cases he
      exact ⟨_, _, _, rfl⟩
    · exact ih _ _ _ _ e he

/-- Every failure of the loader is of one of two kinds: a truncated level,
detected in the loop after `glGenTextures`, which leaves the generated name in
the handle; or an earlier failure, which leaves the handle 0 and makes no GL
call. -/
theorem loadDDSTexture_failure_paths (env : DDSEnv) (hfail : (loadDDSTexture env).ok = false) :
    ((∃ l o s, (loadDDSTexture env).error = some (LoadError.truncated env.file.length l o s))
        ∧ (loadDDSTexture env).texture = env.newTexture
        ∧ GLCall.genTextures env.newTexture ∈ (loadDDSTexture env).calls)
    ∨ ((loadDDSTexture env).texture = 0 ∧ (loadDDSTexture env).calls = []) := by
  by_cases hlen : 128 ≤ env.file.length
  swap
  · have hs := loadDDSTexture_short_paths env (by omega)
    exact Or.inr ⟨hs.1, hs.2⟩
  rcases loadDDSTexture_cases env hlen with e | e | e | e
  · rw [e]; exact Or.inr ⟨rfl, rfl⟩
  · rw [e]; exact Or.inr ⟨rfl, rfl⟩
  · rw [e]; exact Or.inr ⟨rfl, rfl⟩
  · rw [e] at hfail ⊢
    by_cases hs : readU32 env.file 0 (by omega) = DDS_SIGNATURE
    swap
    · rw [loadParsed_bad_signature _ _ _ _ _ _ _ hs]
      exact Or.inr ⟨rfl, rfl⟩
    cases hf : formatOf (readU32 env.file 84 (by omega)) with
    | none =>
      rw [loadParsed_unknown_format _ _ _ _ _ _ _ hs hf]
      exact Or.inr ⟨rfl, rfl⟩
    | some format =>
      cases hl : (mipLoop env.file.length format (blockSizeOf format)
          (readU32 env.file 28 (by omega)) 0 (readU32 env.file 16 (by omega))
          (readU32 env.file 12 (by omega)) DDS_HEADER_SIZE).2 with
      | none =>
        rw [loadParsed_loop_done _ _ _ _ _ _ _ _ hs hf hl] at hfail
        cases hfail
      | some err =>
        obtain ⟨l, o, s, rfl⟩ := mipLoop_error_truncated _ _ _ _ _ _ _ _ err hl
        rw [loadParsed_loop_failed _ _ _ _ _ _ _ _ _ hs hf hl]
        exact Or.inl ⟨⟨l, o, s, rfl⟩, rfl, by simp⟩

/-- The block size of line 138 for each supported format code: 8 for DXT1,
16 for DXT3 and DXT5. -/
theorem blockSize_of_formatCode :
    (formatOf FORMAT_CODE_DXT1).map blockSizeOf = some 8
    ∧ (formatOf FORMAT_CODE_DXT3).map blockSizeOf = some 16
    ∧ (formatOf FORMAT_CODE_DXT5).map blockSizeOf = some 16 := by
  decide

/-! ## The vertical flip -/

/-- A counted loop whose body keeps an invariant indexed by the counter runs
to completion and establishes the invariant at the bound. -/
theorem foldlM_range_invariant {β : Type} (f : β → Nat → Option β) (P : Nat → β → Prop)
    (n : Nat) (b : β) (h0 : P 0 b)
    (hstep : ∀ k c, k < n → P k c → ∃ c', f c k = some c' ∧ P (k + 1) c') :
    ∃ c, (List.range n).foldlM f b = some c ∧ P n c := by
  induction n with
  | zero => exact ⟨b, rfl, h0⟩
  | succ n ih =>
    obtain ⟨c, hc, hP⟩ := ih (fun k c hk hp => hstep k c (by omega) hp)
    obtain ⟨c', hc', hP'⟩ := hstep n c (by omega) hP
    refine ⟨c', ?_, hP'⟩
    rw [List.range_succ, List.foldlM_append, hc]
    simp [hc']

theorem checkedInt_natCast (x : Nat) (hx : (x : Int) ≤ INT_MAX) :
    checkedInt (x : Int) = some (x : Int) := by
  unfold checkedInt
  have h0 : INT_MIN ≤ (x : Int) := by
    unfold INT_MIN
    omega
  rw [if_pos ⟨h0, hx⟩]

/-- The swap of two positions inside the buffer succeeds; afterwards each of
the two holds what the other held and every other position is unchanged. -/
theorem swapBytes_spec (d : List UInt8) (o1 o2 : Nat) (h1 : o1 < d.length)
    (h2 : o2 < d.length) :
    ∃ d', swapBytes d (o1 : Int) (o2 : Int) = some d' ∧ d'.length = d.length
      ∧ ∀ p, d'[p]? = if p = o2 then d[o1]? else if p = o1 then d[o2]? else d[p]? := by
  have e1 : d[o1]? = some d[o1] := List.getElem?_eq_getElem h1
  have e2 : d[o2]? = some d[o2] := List.getElem?_eq_getElem h2
  refine ⟨(d.set o1 d[o2]).set o2 d[o1], ?_, by simp, ?_⟩
  · unfold swapBytes
    have hn : ¬ ((o1 : Int) < 0 ∨ (o2 : Int) < 0) := by omega
    rw [if_neg hn]
    simp only [Int.toNat_ofNat, e1, e2]
  · intro p
    rw [List.getElem?_set, List.getElem?_set]
    by_cases hp2 : p = o2
    · subst hp2
      simp [h2, e1]
    · by_cases hp1 : p = o1
      · subst hp1
        simp [h1, e2, Ne.symm hp2, hp2]
      · simp [hp2, hp1, Ne.symm hp2, Ne.symm hp1]

/-- One swap of a position below the half with its mirror image advances the
invariant. -/
theorem flipInv_step (mirror : Nat → Nat) (d d' : List UInt8) (T Tf : Nat)
    (hlt : ∀ p, p < d.length → mirror p < d.length)
    (hinvol : ∀ p, p < d.length → mirror (mirror p) = p)
    (hhigh : ∀ p, p < Tf → Tf ≤ mirror p) (hTf : Tf ≤ d.length) (hT : T < Tf)
    (hinv : FlipInv mirror d T d') :
    ∃ d2, swapBytes d' (T : Int) (mirror T : Int) = some d2 ∧ FlipInv mirror d (T + 1) d2 := by
  obtain ⟨hlen, hget⟩ := hinv
  have hTlen : T < d.length := by omega
  have hmT : mirror T < d.length := hlt T hTlen
  have hmTge : Tf ≤ mirror T := hhigh T hT
  have hmm : mirror (mirror T) = T := hinvol T hTlen
  obtain ⟨d2, hswap, hlen2', hget2⟩ :=
    swapBytes_spec d' T (mirror T) (by omega) (by omega)
  have hatT : d'[T]? = d[T]? := by
    rw [hget T hTlen, if_neg (by omega)]
  have hatM : d'[mirror T]? = d[mirror T]? := by
    rw [hget (mirror T) hmT, hmm, if_neg (by omega)]
  refine ⟨d2, hswap, by omega, ?_⟩
  intro p hp
  rw [hget2 p]
  by_cases hp2 : p = mirror T
  · rw [if_pos hp2, hatT, hp2, hmm, if_pos (Or.inr (by omega))]
  · rw [if_neg hp2]
    by_cases hp1 : p = T
    · rw [if_pos hp1, hatM, hp1, if_pos (Or.inl (by omega))]
    · rw [if_neg hp1, hget p hp]
      have hmp : mirror p ≠ T := by
        intro hcontra
        apply hp2
        rw [← hcontra, hinvol p hp]
      by_cases hc : p < T ∨ mirror p < T
      · rw [if_pos hc, if_pos (by omega)]
      · rw [if_neg hc, if_neg (by omega)]

/-- When all positions below the half are done, every position holds what
its mirror image held. -/
theorem flipInv_final (mirror : Nat → Nat) (d d' : List UInt8) (Tf : Nat)
    (hmid : ∀ p, p < d.length → Tf ≤ p → Tf ≤ mirror p → mirror p = p)
    (hinv : FlipInv mirror d Tf d') :
    d'.length = d.length ∧ ∀ p, p < d.length → d'[p]? = d[mirror p]? := by
  refine ⟨hinv.1, fun p hp => ?_⟩
  rw [hinv.2 p hp]
  by_cases hc : p < Tf ∨ mirror p < Tf
  · rw [if_pos hc]
  · rw [if_neg hc, hmid p hp (by omega) (by omega)]

theorem flipInv_start (mirror : Nat → Nat) (d : List UInt8) : FlipInv mirror d 0 d :=
  ⟨rfl, fun p _ => by rw [if_neg (by omega)]⟩

/-! ### The offsets of the loop body -/

theorem offset_bound (W H N r w i : Nat) (hr : r < H) (hw : w < W) (hi : i < N) :
    r * W ≤ r * W + w ∧ r * W + w ≤ (r * W + w) * N
      ∧ (r * W + w) * N + i < W * H * N := by
  have hN : 1 ≤ N := by omega
  have h1 : r * W + w ≤ (r * W + w) * N := Nat.le_mul_of_pos_right _ hN
  have h2 : (r * W + w + 1) * N ≤ (r * W + W) * N := Nat.mul_le_mul_right N (by omega)
  have h3 : (r + 1) * W ≤ H * W := Nat.mul_le_mul_right W (by omega)
  have h4 : (r + 1) * W * N ≤ H * W * N := Nat.mul_le_mul_right N h3
  have h5 : (r * W + w + 1) * N = (r * W + w) * N + N := by ring
  have h6 : (r * W + W) * N = (r + 1) * W * N := by ring
  have h7 : H * W * N = W * H * N := by ring
  refine ⟨by omega, h1, ?_⟩
  omega

theorem checkedInt_mul (a b : Nat) (h : ((a * b : Nat) : Int) ≤ INT_MAX) :
    checkedInt ((a : Int) * (b : Int)) = some ((a * b : Nat) : Int) := by
  rw [← Nat.cast_mul]
  exact checkedInt_natCast _ h

theorem checkedInt_add (a b : Nat) (h : ((a + b : Nat) : Int) ≤ INT_MAX) :
    checkedInt ((a : Int) + (b : Int)) = some ((a + b : Nat) : Int) := by
  rw [← Nat.cast_add]
  exact checkedInt_natCast _ h

theorem checkedInt_sub (a b : Nat) (hba : b ≤ a) (h : ((a - b : Nat) : Int) ≤ INT_MAX) :
    checkedInt ((a : Int) - (b : Int)) = some ((a - b : Nat) : Int) := by
  rw [← Nat.cast_sub hba]
  exact checkedInt_natCast _ h

theorem checkedInt_pred (a : Nat) (ha : 1 ≤ a) (h : ((a - 1 : Nat) : Int) ≤ INT_MAX) :
    checkedInt ((a : Int) - 1) = some ((a - 1 : Nat) : Int) := by
  have e : (a : Int) - 1 = ((a - 1 : Nat) : Int) := by omega
  rw [e]
  exact checkedInt_natCast _ h

/-- With non-negative sizes whose product fits an `int`, the body of the loop
at row `h` of the upper half, column `w` and channel `i` computes its two
offsets without overflow; they are `(h*W + w)*N + i` and
`((H-h-1)*W + w)*N + i`. -/
theorem flipBody_eq (W H N h w i : Nat) (d : List UInt8) (hh : h < H) (hw : w < W)
    (hi : i < N) (hint : ((W * H * N : Nat) : Int) ≤ INT_MAX) :
    flipBody (W : Int) (H : Int) (N : Int) h w i d
      = swapBytes d (((h * W + w) * N + i : Nat) : Int)
          ((((H - h - 1) * W + w) * N + i : Nat) : Int) := by
  obtain ⟨a1, a2, a3⟩ := offset_bound W H N h w i hh hw hi
  obtain ⟨b1, b2, b3⟩ := offset_bound W H N (H - h - 1) w i (by omega) hw hi
  have hW : 1 ≤ W := by omega
  have hHW : H ≤ H * W := Nat.le_mul_of_pos_right _ hW
  have hHW2 : H * W ≤ H * W * N := Nat.le_mul_of_pos_right _ (by omega)
  have hring : H * W * N = W * H * N := by ring
  have e1 := checkedInt_mul h W (by omega)
  have e2 := checkedInt_add (h * W) w (by omega)
  have e3 := checkedInt_mul (h * W + w) N (by omega)
  have e4 := checkedInt_add ((h * W + w) * N) i (by omega)
  have e5 := checkedInt_sub H h (by omega) (by omega)
  have e6 := checkedInt_pred (H - h) (by omega) (by omega)
  have e7 := checkedInt_mul (H - h - 1) W (by omega)
  have e8 := checkedInt_add ((H - h - 1) * W) w (by omega)
  have e9 := checkedInt_mul ((H - h - 1) * W + w) N (by omega)
  have e10 := checkedInt_add (((H - h - 1) * W + w) * N) i (by omega)
  unfold flipBody
  simp only [e1, e2, e3, e4, e5, e6, e7, e8, e9, e10, Option.bind_eq_bind, Option.some_bind]

/-! ### The mirror image of an index -/

theorem mirrorIndex_row (W H N q c : Nat) (hc : c < W * N) :
    mirrorIndex W H N (q * (W * N) + c) = (H - 1 - q) * (W * N) + c := by
  have hR : 0 < W * N := by omega
  unfold mirrorIndex
  have e1 : (q * (W * N) + c) / (W * N) = q := by
    rw [Nat.add_comm, Nat.add_mul_div_right _ _ hR, Nat.div_eq_of_lt hc, Nat.zero_add]
  have e2 : (q * (W * N) + c) % (W * N) = c := by
    rw [Nat.add_comm, Nat.add_mul_mod_self_right, Nat.mod_eq_of_lt hc]
  rw [e1, e2]

/-- Every index of the buffer is a row times the row size plus a position in
the row. -/
theorem index_decompose (W H N p : Nat) (hp : p < H * (W * N)) :
    ∃ q c, q < H ∧ c < W * N ∧ p = q * (W * N) + c := by
  have hR : 0 < W * N := by
    rcases Nat.eq_zero_or_pos (W * N) with h0 | h0
    · rw [h0] at hp; omega
    · exact h0
  refine ⟨p / (W * N), p % (W * N), ?_, Nat.mod_lt _ hR, (Nat.div_add_mod' p (W * N)).symm⟩
  exact Nat.div_lt_of_lt_mul (by rw [Nat.mul_comm]; exact hp)

theorem mirrorIndex_lt (W H N p : Nat) (hp : p < H * (W * N)) :
    mirrorIndex W H N p < H * (W * N) := by
  obtain ⟨q, c, hq, hc, rfl⟩ := index_decompose W H N p hp
  rw [mirrorIndex_row W H N q c hc]
  have h1 : (H - 1 - q + 1) * (W * N) ≤ H * (W * N) := Nat.mul_le_mul_right _ (by omega)
  have h2 : (H - 1 - q + 1) * (W * N) = (H - 1 - q) * (W * N) + W * N := by ring
  omega

theorem mirrorIndex_involutive (W H N p : Nat) (hp : p < H * (W * N)) :
    mirrorIndex W H N (mirrorIndex W H N p) = p := by
  obtain ⟨q, c, hq, hc, rfl⟩ := index_decompose W H N p hp
  rw [mirrorIndex_row W H N q c hc, mirrorIndex_row W H N _ c hc]
  have e : H - 1 - (H - 1 - q) = q := by omega
  rw [e]

theorem row_lt_of_lt (R a q c : Nat) (h : q * R + c < a * R) : q < a := by
  by_contra hge
  have h1 : a * R ≤ q * R := Nat.mul_le_mul_right R (by omega)
  omega

theorem row_ge_of_ge (R a q c : Nat) (hc : c < R) (h : a * R ≤ q * R + c) : a ≤ q := by
  by_contra hlt
  have h1 : (q + 1) * R ≤ a * R := Nat.mul_le_mul_right R (by omega)
  have h2 : (q + 1) * R = q * R + R := by ring
  omega

theorem mirrorIndex_high (W H N p : Nat) (hp : p < H / 2 * (W * N)) :
    H / 2 * (W * N) ≤ mirrorIndex W H N p := by
  have hle : H / 2 * (W * N) ≤ H * (W * N) := Nat.mul_le_mul_right _ (Nat.div_le_self H 2)
  obtain ⟨q, c, hq, hc, rfl⟩ := index_decompose W H N p (by omega)
  rw [mirrorIndex_row W H N q c hc]
  have hq2 : q < H / 2 := row_lt_of_lt _ _ _ _ hp
  have h1 : H / 2 * (W * N) ≤ (H - 1 - q) * (W * N) := Nat.mul_le_mul_right _ (by omega)
  omega

theorem mirrorIndex_middle (W H N p : Nat) (hp : p < H * (W * N))
    (h1 : H / 2 * (W * N) ≤ p) (h2 : H / 2 * (W * N) ≤ mirrorIndex W H N p) :
    mirrorIndex W H N p = p := by
  obtain ⟨q, c, hq, hc, rfl⟩ := index_decompose W H N p hp
  rw [mirrorIndex_row W H N q c hc] at h2 ⊢
  have hq1 : H / 2 ≤ q := row_ge_of_ge _ _ _ _ hc h1
  have hq2 : H / 2 ≤ H - 1 - q := row_ge_of_ge _ _ _ _ hc h2
  have e : H - 1 - q = q := by omega
  rw [e]

/-- The two offsets of the loop body are an index of the upper half and its
mirror image. -/
theorem offsets_mirror (W H N h w i : Nat) (hh : h < H) (hw : w < W) (hi : i < N) :
    (h * W + w) * N + i = h * (W * N) + (w * N + i)
    ∧ ((H - h - 1) * W + w) * N + i = mirrorIndex W H N ((h * W + w) * N + i)
    ∧ w * N + i < W * N := by
  have hc : w * N + i < W * N := by
    have h1 : (w + 1) * N ≤ W * N := Nat.mul_le_mul_right N (by omega)
    have h2 : (w + 1) * N = w * N + N := by ring
    omega
  have e1 : (h * W + w) * N + i = h * (W * N) + (w * N + i) := by ring
  refine ⟨e1, ?_, hc⟩
  rw [e1, mirrorIndex_row W H N h _ hc]
  have e2 : H - h - 1 = H - 1 - h := by omega
  rw [e2]
  ring

/-! ### The three loops -/

theorem tdiv_two_toNat (H : Nat) : (Int.tdiv (H : Int) 2).toNat = H / 2 := by
  have e : Int.tdiv (H : Int) 2 = ((H / 2 : Nat) : Int) := by
    rw [Int.tdiv_eq_ediv (by omega) (by omega)]
    omega
  rw [e, Int.toNat_ofNat]

/-- On a buffer of `W * H * N` bytes, with `W * H * N` in the range of `int`,
the flip runs to completion without overflow and without leaving the buffer,
and every position then holds what its mirror image held. -/
theorem flipTexture_run (W H N : Nat) (d : List UInt8) (hlen : d.length = W * H * N)
    (hint : ((W * H * N : Nat) : Int) ≤ INT_MAX) :
    ∃ d', flipTexture d (W : Int) (H : Int) (N : Int) = some d' ∧ d'.length = d.length
      ∧ ∀ p, p < d.length → d'[p]? = d[mirrorIndex W H N p]? := by
  have hlen2 : d.length = H * (W * N) := by rw [hlen]; ring
  have hlt : ∀ p, p < d.length → mirrorIndex W H N p < d.length := by
    intro p hp
    rw [hlen2] at hp ⊢
    exact mirrorIndex_lt W H N p hp
  have hinvol : ∀ p, p < d.length → mirrorIndex W H N (mirrorIndex W H N p) = p := by
    intro p hp
    rw [hlen2] at hp
    exact mirrorIndex_involutive W H N p hp
  have hTf : H / 2 * (W * N) ≤ d.length := by
    rw [hlen2]
    exact Nat.mul_le_mul_right _ (Nat.div_le_self H 2)
  have hmid : ∀ p, p < d.length → H / 2 * (W * N) ≤ p →
      H / 2 * (W * N) ≤ mirrorIndex W H N p → mirrorIndex W H N p = p := by
    intro p hp h1 h2
    rw [hlen2] at hp
    exact mirrorIndex_middle W H N p hp h1 h2
  have houter := foldlM_range_invariant
    (fun c h => (List.range W).foldlM (fun c w =>
      (List.range N).foldlM (fun c i => flipBody (W : Int) (H : Int) (N : Int) h w i c) c) c)
    (fun h c => FlipInv (mirrorIndex W H N) d (h * W * N) c) (H / 2) d
    (by
      have e : 0 * W * N = 0 := by ring
      beta_reduce
      rw [e]
      exact flipInv_start _ d)
    (by
      intro h c hh hP
      have hmiddle := foldlM_range_invariant
        (fun c w => (List.range N).foldlM
          (fun c i => flipBody (W : Int) (H : Int) (N : Int) h w i c) c)
        (fun w c => FlipInv (mirrorIndex W H N) d ((h * W + w) * N) c) W c
        (by beta_reduce; rw [Nat.add_zero]; exact hP)
        (by
          intro w c hw hP
          have hinner := foldlM_range_invariant
            (fun c i => flipBody (W : Int) (H : Int) (N : Int) h w i c)
            (fun i c => FlipInv (mirrorIndex W H N) d ((h * W + w) * N + i) c) N c
            (by beta_reduce; rw [Nat.add_zero]; exact hP)
            (by
              intro i c hi hP
              have hhH : h < H := by omega
              obtain ⟨o1, o2, o3⟩ := offsets_mirror W H N h w i hhH hw hi
              have hT : (h * W + w) * N + i < H / 2 * (W * N) := by
                have h1 : (h + 1) * (W * N) ≤ H / 2 * (W * N) :=
                  Nat.mul_le_mul_right _ (by omega)
                have h2 : (h + 1) * (W * N) = h * (W * N) + W * N := by ring
                omega
              beta_reduce
              rw [flipBody_eq W H N h w i c hhH hw hi hint, o2]
              exact flipInv_step (mirrorIndex W H N) d c _ _ hlt hinvol
                (fun p hp => mirrorIndex_high W H N p hp) hTf hT hP)
          obtain ⟨c', hc', hP'⟩ := hinner
          refine ⟨c', hc', ?_⟩
          have e : (h * W + w) * N + N = (h * W + (w + 1)) * N := by ring
          beta_reduce
          rw [← e]
          exact hP')
      obtain ⟨c', hc', hP'⟩ := hmiddle
      refine ⟨c', hc', ?_⟩
      have e : (h * W + W) * N = (h + 1) * W * N := by ring
      beta_reduce
      rw [← e]
      exact hP')
  obtain ⟨d', hd', hP⟩ := houter
  have hfinal := flipInv_final (mirrorIndex W H N) d d' (H / 2 * (W * N)) hmid
    (by
      have e : H / 2 * W * N = H / 2 * (W * N) := by ring
      rw [← e]
      exact hP)
  refine ⟨d', ?_, hfinal.1, hfinal.2⟩
  unfold flipTexture
  rw [tdiv_two_toNat, Int.toNat_ofNat, Int.toNat_ofNat]
  exact hd'

/-! ### Sizes for which the loops do nothing -/

theorem foldlM_skip {β : Type} (f : β → Nat → Option β) (hf : ∀ c k, f c k = some c)
    (l : List Nat) (b : β) : l.foldlM f b = some b := by
  induction l generalizing b with
  | nil => rfl
  | cons k l ih =>
    rw [List.foldlM_cons, hf b k]
    exact ih b

theorem tdiv_two_toNat_of_lt (height : Int) (hh : height < 2) :
    (Int.tdiv height 2).toNat = 0 := by
  by_cases h0 : 0 ≤ height
  · rw [Int.tdiv_eq_ediv h0 (by omega)]
    omega
  · have e : height = -(-height) := by omega
    rw [e, Int.neg_tdiv, Int.tdiv_eq_ediv (by omega) (by omega)]
    omega

/-- With a height below 2, or a width or a number of channels that is not
positive, `flipTexture` makes no access and leaves the buffer as it is,
whatever the other sizes are. -/
theorem flipTexture_noop (width height n : Int) (d : List UInt8)
    (h : height < 2 ∨ width ≤ 0 ∨ n ≤ 0) : flipTexture d width height n = some d := by
  unfold flipTexture
  rcases h with h | h | h
  · rw [tdiv_two_toNat_of_lt height h]
    rfl
  · have e : width.toNat = 0 := by omega
    rw [e]
    exact foldlM_skip _ (fun c k => rfl) _ d
  · have e : n.toNat = 0 := by omega
    rw [e]
    exact foldlM_skip _ (fun c k => foldlM_skip _ (fun c2 k2 => rfl) _ c) _ d

/-- C10: for non-negative `W`, `H`, `N` with `W * H * N` in the range of
`int` and a buffer of `W * H * N` bytes, `flipTexture` runs to completion
with every `int` value in range and every access inside the buffer; afterwards
the byte at `(h*W + w)*N + i` is the original byte at `((H-1-h)*W + w)*N + i`
for all `h < H`, `w < W`, `i < N` (both indices are inside the buffer), the
middle row of an image of odd height is unchanged, and a second flip gives
back the original buffer. -/
theorem flipTexture_mirrors (W H N : Nat) (d : List UInt8) (hlen : d.length = W * H * N)
    (hint : ((W * H * N : Nat) : Int) ≤ INT_MAX) :
    ∃ d', flipTexture d (W : Int) (H : Int) (N : Int) = some d' ∧ d'.length = d.length
      ∧ (∀ h w i, h < H → w < W → i < N →
          (h * W + w) * N + i < d'.length ∧ ((H - 1 - h) * W + w) * N + i < d.length
          ∧ d'[(h * W + w) * N + i]? = d[((H - 1 - h) * W + w) * N + i]?)
      ∧ (∀ w i, H % 2 = 1 → w < W → i < N →
          d'[(H / 2 * W + w) * N + i]? = d[(H / 2 * W + w) * N + i]?)
      ∧ flipTexture d' (W : Int) (H : Int) (N : Int) = some d := by
  obtain ⟨d', hrun, hlen', hget⟩ := flipTexture_run W H N d hlen hint
  have hlen2 : d.length = H * (W * N) := by rw [hlen]; ring
  have hpix : ∀ h w i, h < H → w < W → i < N →
      (h * W + w) * N + i < d'.length ∧ ((H - 1 - h) * W + w) * N + i < d.length
      ∧ d'[(h * W + w) * N + i]? = d[((H - 1 - h) * W + w) * N + i]? := by
    intro h w i hh hw hi
    obtain ⟨_, _, a3⟩ := offset_bound W H N h w i hh hw hi
    obtain ⟨_, _, b3⟩ := offset_bound W H N (H - 1 - h) w i (by omega) hw hi
    obtain ⟨_, o2, _⟩ := offsets_mirror W H N h w i hh hw hi
    have e : H - h - 1 = H - 1 - h := by omega
    rw [e] at o2
    refine ⟨by omega, by omega, ?_⟩
    rw [hget _ (by omega), ← o2]
  refine ⟨d', hrun, hlen', hpix, ?_, ?_⟩
  · intro w i hodd hw hi
    have e : H - 1 - H / 2 = H / 2 := by omega
    have := (hpix (H / 2) w i (by omega) hw hi).2.2
    rw [e] at this
    exact this
  · obtain ⟨d2, hrun', hlen2', hget'⟩ :=
      flipTexture_run W H N d' (by rw [hlen', hlen]) hint
    have hdd : d2 = d := by
      apply List.ext_getElem?
      intro p
      by_cases hp : p < d.length
      · have hm : mirrorIndex W H N p < d.length := by
          rw [hlen2] at hp ⊢
          exact mirrorIndex_lt W H N p hp
        rw [hget' p (by omega), hget _ hm,
          mirrorIndex_involutive W H N p (by rw [← hlen2]; exact hp)]
      · rw [List.getElem?_eq_none (by omega), List.getElem?_eq_none (by omega)]
    rw [hrun', hdd]

/-- Witness of C10 on a 2 x 3 image with 2 bytes per pixel. -/
theorem flipTexture_mirrors_witness :
    flipTexture [1, 2, 3, 4, 5, 6, 7, 8, 9, 10, 11, 12] ((2 : Nat) : Int) ((3 : Nat) : Int)
        ((2 : Nat) : Int) = some [9, 10, 11, 12, 5, 6, 7, 8, 1, 2, 3, 4]
    ∧ ∃ d', flipTexture [1, 2, 3, 4, 5, 6, 7, 8, 9, 10, 11, 12] ((2 : Nat) : Int)
        ((3 : Nat) : Int) ((2 : Nat) : Int) = some d'
      ∧ d'.length = [1, 2, 3, 4, 5, 6, 7, 8, 9, 10, 11, (12 : UInt8)].length
      ∧ (∀ h w i, h < 3 → w < 2 → i < 2 →
          (h * 2 + w) * 2 + i < d'.length
          ∧ ((3 - 1 - h) * 2 + w) * 2 + i
              < [1, 2, 3, 4, 5, 6, 7, 8, 9, 10, 11, (12 : UInt8)].length
          ∧ d'[(h * 2 + w) * 2 + i]?
              = [1, 2, 3, 4, 5, 6, 7, 8, 9, 10, 11, (12 : UInt8)][((3 - 1 - h) * 2 + w) * 2 + i]?)
      ∧ (∀ w i, 3 % 2 = 1 → w < 2 → i < 2 →
          d'[(3 / 2 * 2 + w) * 2 + i]?
            = [1, 2, 3, 4, 5, 6, 7, 8, 9, 10, 11, (12 : UInt8)][(3 / 2 * 2 + w) * 2 + i]?)
      ∧ flipTexture d' ((2 : Nat) : Int) ((3 : Nat) : Int) ((2 : Nat) : Int)
          = some [1, 2, 3, 4, 5, 6, 7, 8, 9, 10, 11, 12] :=
  ⟨by decide,
   flipTexture_mirrors 2 3 2 [1, 2, 3, 4, 5, 6, 7, 8, 9, 10, 11, 12] (by decide) (by decide)⟩

/-! ## The loader on files below 4 GiB -/

/-- A well-formed file of less than `2 ^ 32` bytes, with height `h`, width
`w` and `m` levels in its header, is loaded as specified: the loader returns
true, the handle is the generated name, and the calls are the set-up, the
uploads of levels `0 .. m-1` with the specified dimensions, sizes and offsets,
and the unbind. -/
theorem loadDDSTexture_wellFormed_small (env : DDSEnv) (h w m fc format : Nat)
    (ho : env.openOk = true) (hf : env.fstatOk = true) (hm : env.mmapOk = true)
    (hlen : 128 ≤ env.file.length) (hsmall : env.file.length < UINT_MOD)
    (hsig : readU32 env.file 0 (by omega) = DDS_SIGNATURE)
    (hhei : readU32 env.file 12 (by omega) = h) (hwid : readU32 env.file 16 (by omega) = w)
    (hmip : readU32 env.file 28 (by omega) = m) (hfc : readU32 env.file 84 (by omega) = fc)
    (hfmt : formatOf fc = some format)
    (hfit : exactOffset w h (blockSizeOf format) m ≤ env.file.length) :
    loadDDSTexture env =
      { ok := true, texture := env.newTexture,
        calls := [GLCall.genTextures env.newTexture,
            GLCall.bindTexture GL_TEXTURE_2D env.newTexture,
            GLCall.pixelStorei GL_UNPACK_ALIGNMENT 1]
          ++ exactUploads format (blockSizeOf format) w h m
          ++ [GLCall.bindTexture GL_TEXTURE_2D 0],
        error := none } :=
  (loadDDSTexture_of_fields env ho hf hm hlen _ _ _ _ _ _ rfl hsig hhei hwid hmip hfc).trans
    (loadParsed_wellFormed_small _ _ _ _ _ _ _ format (hwid ▸ readU32_lt _ _ _)
      (hhei ▸ readU32_lt _ _ _) hsmall rfl hfmt hfit)

/-- In a file with a valid header whose level `k` is the first whose
specified payload ends past the end of the file, and ends below `2 ^ 32`, the
loader uploads levels `0 .. k-1` as specified and returns false, reporting
level `k`, its offset and its size. -/
theorem loadDDSTexture_truncated_small (env : DDSEnv) (h w m fc format k : Nat)
    (ho : env.openOk = true) (hf : env.fstatOk = true) (hm : env.mmapOk = true)
    (hlen : 128 ≤ env.file.length)
    (hsig : readU32 env.file 0 (by omega) = DDS_SIGNATURE)
    (hhei : readU32 env.file 12 (by omega) = h) (hwid : readU32 env.file 16 (by omega) = w)
    (hmip : readU32 env.file 28 (by omega) = m) (hfc : readU32 env.file 84 (by omega) = fc)
    (hfmt : formatOf fc = some format) (hk : k < m)
    (hfit : exactOffset w h (blockSizeOf format) k ≤ env.file.length)
    (hover : env.file.length < exactOffset w h (blockSizeOf format) (k + 1))
    (hnowrap : exactOffset w h (blockSizeOf format) (k + 1) < UINT_MOD) :
    loadDDSTexture env =
      { ok := false, texture := env.newTexture,
        calls := [GLCall.genTextures env.newTexture,
            GLCall.bindTexture GL_TEXTURE_2D env.newTexture,
            GLCall.pixelStorei GL_UNPACK_ALIGNMENT 1]
          ++ exactUploads format (blockSizeOf format) w h k,
        error := some (LoadError.truncated env.file.length k
          (exactOffset w h (blockSizeOf format) k)
          (exactSize (dimAt w k) (dimAt h k) (blockSizeOf format))) } :=
  (loadDDSTexture_of_fields env ho hf hm hlen _ _ _ _ _ _ rfl hsig hhei hwid hmip hfc).trans
    (loadParsed_truncated_small _ _ _ _ _ _ _ format k (hwid ▸ readU32_lt _ _ _)
      (hhei ▸ readU32_lt _ _ _) rfl hfmt hk hfit hover hnowrap)

/-! ## Runs on concrete files -/

/-- The hypotheses of `loadDDSTexture_wellFormed_small` hold of a 208-byte
file with a 10 x 6 DXT1 texture of 4 levels, which is loaded with uploads of
48, 16, 8 and 8 bytes at offsets 128, 176, 192 and 200. -/
theorem loadDDSTexture_wellFormed_small_example :
    loadDDSTexture (envOf (ddsHeader DDS_SIGNATURE 6 10 4 FORMAT_CODE_DXT1
        ++ List.replicate 80 0)) =
      { ok := true, texture := 1,
        calls := [GLCall.genTextures 1, GLCall.bindTexture GL_TEXTURE_2D 1,
          GLCall.pixelStorei GL_UNPACK_ALIGNMENT 1,
          GLCall.compressedTexImage2D GL_TEXTURE_2D 0 GL_COMPRESSED_RGBA_S3TC_DXT1_EXT
            10 6 0 48 128,
          GLCall.compressedTexImage2D GL_TEXTURE_2D 1 GL_COMPRESSED_RGBA_S3TC_DXT1_EXT
            5 3 0 16 176,
          GLCall.compressedTexImage2D GL_TEXTURE_2D 2 GL_COMPRESSED_RGBA_S3TC_DXT1_EXT
            2 1 0 8 192,
          GLCall.compressedTexImage2D GL_TEXTURE_2D 3 GL_COMPRESSED_RGBA_S3TC_DXT1_EXT
            1 1 0 8 200,
          GLCall.bindTexture GL_TEXTURE_2D 0],
        error := none } :=
  (loadDDSTexture_wellFormed_small
    (envOf (ddsHeader DDS_SIGNATURE 6 10 4 FORMAT_CODE_DXT1 ++ List.replicate 80 0))
    6 10 4 FORMAT_CODE_DXT1 GL_COMPRESSED_RGBA_S3TC_DXT1_EXT rfl rfl rfl
    (by decide) (by decide) (by decide) (by decide) (by decide) (by decide) (by decide)
    (by decide) (by decide)).trans (by decide)

/-- The hypotheses of `loadDDSTexture_truncated_small` hold of the same
header followed by 75 bytes only: levels 0 to 2 are uploaded and level 3, which
would end at byte 208, is reported. -/
theorem loadDDSTexture_truncated_small_example :
    loadDDSTexture (envOf (ddsHeader DDS_SIGNATURE 6 10 4 FORMAT_CODE_DXT1
        ++ List.replicate 75 0)) =
      { ok := false, texture := 1,
        calls := [GLCall.genTextures 1, GLCall.bindTexture GL_TEXTURE_2D 1,
          GLCall.pixelStorei GL_UNPACK_ALIGNMENT 1,
          GLCall.compressedTexImage2D GL_TEXTURE_2D 0 GL_COMPRESSED_RGBA_S3TC_DXT1_EXT
            10 6 0 48 128,
          GLCall.compressedTexImage2D GL_TEXTURE_2D 1 GL_COMPRESSED_RGBA_S3TC_DXT1_EXT
            5 3 0 16 176,
          GLCall.compressedTexImage2D GL_TEXTURE_2D 2 GL_COMPRESSED_RGBA_S3TC_DXT1_EXT
            2 1 0 8 192],
        error := some (LoadError.truncated 203 3 200 8) } :=
  (loadDDSTexture_truncated_small
    (envOf (ddsHeader DDS_SIGNATURE 6 10 4 FORMAT_CODE_DXT1 ++ List.replicate 75 0))
    6 10 4 FORMAT_CODE_DXT1 GL_COMPRESSED_RGBA_S3TC_DXT1_EXT 3 rfl rfl rfl
    (by decide) (by decide) (by decide) (by decide) (by decide) (by decide) (by decide)
    (by decide) (by decide) (by decide) (by decide)).trans (by decide)

/-- C1: on a 128-byte file with a valid header that declares one 4x4 DXT1
level and holds no payload, the loader returns false after `glGenTextures`:
the handle is the generated name 1, not 0, and the generated texture is
neither deleted nor unbound. -/
theorem loadDDSTexture_truncated_keeps_texture :
    loadDDSTexture (envOf (ddsHeader DDS_SIGNATURE 4 4 1 FORMAT_CODE_DXT1)) =
      { ok := false, texture := 1,
        calls := [GLCall.genTextures 1, GLCall.bindTexture GL_TEXTURE_2D 1,
          GLCall.pixelStorei GL_UNPACK_ALIGNMENT 1],
        error := some (LoadError.truncated 128 0 128 8) }
    ∧ (loadDDSTexture (envOf (ddsHeader DDS_SIGNATURE 4 4 1 FORMAT_CODE_DXT1))).texture ≠ 0
    ∧ GLCall.genTextures 1
        ∈ (loadDDSTexture (envOf (ddsHeader DDS_SIGNATURE 4 4 1 FORMAT_CODE_DXT1))).calls := by
  decide

/-- C2: on a 128-byte file with a valid header that declares one DXT1 level
of width 2147483644 and height 1, whose specified payload of 4294967288 bytes
ends far past the end of the file, the sum `offset + size` of line 145 wraps
to 120, the check passes, the level is uploaded with the byte range
[128, 128 + 4294967288) and the loader returns true. -/
theorem loadDDSTexture_overflow_passes_check :
    (envOf (ddsHeader DDS_SIGNATURE 1 2147483644 1 FORMAT_CODE_DXT1)).file.length = 128
    ∧ exactOffset 2147483644 1 8 1 = 128 + 4294967288
    ∧ loadDDSTexture (envOf (ddsHeader DDS_SIGNATURE 1 2147483644 1 FORMAT_CODE_DXT1)) =
      { ok := true, texture := 1,
        calls := [GLCall.genTextures 1, GLCall.bindTexture GL_TEXTURE_2D 1,
          GLCall.pixelStorei GL_UNPACK_ALIGNMENT 1,
          GLCall.compressedTexImage2D GL_TEXTURE_2D 0 GL_COMPRESSED_RGBA_S3TC_DXT1_EXT
            2147483644 1 0 4294967288 128,
          GLCall.bindTexture GL_TEXTURE_2D 0],
        error := none }
    ∧ (loadDDSTexture (envOf (ddsHeader DDS_SIGNATURE 1 2147483644 1
        FORMAT_CODE_DXT1))).calls.all (readsInside 128) = false := by
  decide

/-- C3: on a well-formed file of 5636882560 bytes holding a 65536 x 65532
DXT5 texture with 3 levels (of 4294705152, 1073741824 and 268435456 bytes),
the running offset of line 155 wraps after level 1: level 2, whose payload
starts at byte 5368447104, is uploaded from offset 1073479808. -/
theorem loadDDSTexture_large_file_wrong_offset :
    (ddsHeader DDS_SIGNATURE 65532 65536 3 FORMAT_CODE_DXT5
        ++ List.replicate 5636882432 0).length = 5636882560
    ∧ exactOffset 65536 65532 16 3 = 5636882560
    ∧ exactOffset 65536 65532 16 2 = 5368447104
    ∧ loadDDSTexture (envOf (ddsHeader DDS_SIGNATURE 65532 65536 3 FORMAT_CODE_DXT5
        ++ List.replicate 5636882432 0)) =
      { ok := true, texture := 1,
        calls := [GLCall.genTextures 1, GLCall.bindTexture GL_TEXTURE_2D 1,
          GLCall.pixelStorei GL_UNPACK_ALIGNMENT 1,
          GLCall.compressedTexImage2D GL_TEXTURE_2D 0 GL_COMPRESSED_RGBA_S3TC_DXT5_EXT
            65536 65532 0 4294705152 128,
          GLCall.compressedTexImage2D GL_TEXTURE_2D 1 GL_COMPRESSED_RGBA_S3TC_DXT5_EXT
            32768 32766 0 1073741824 4294705280,
          GLCall.compressedTexImage2D GL_TEXTURE_2D 2 GL_COMPRESSED_RGBA_S3TC_DXT5_EXT
            16384 16383 0 268435456 1073479808,
          GLCall.bindTexture GL_TEXTURE_2D 0],
        error := none } := by
  refine ⟨?_, by decide, by decide, ?_⟩
  · rw [List.length_append, ddsHeader_length, List.length_replicate]
  · rw [loadDDSTexture_ddsFile _ _ _ _ _ _ (by decide) (by decide) (by decide) (by decide)
      (by decide), List.length_replicate]
    decide

/-- C4: on a 128-byte file with a valid header that declares one DXT1 level
of 131072 x 131072 pixels, the product of line 144 wraps: the size computed
and passed to the upload is 0, while `ceil(131072/4) * ceil(131072/4) * 8` is
8589934592. -/
theorem levelSize_wraps :
    levelSize 131072 131072 (blockSizeOf GL_COMPRESSED_RGBA_S3TC_DXT1_EXT) = 0
    ∧ exactSize 131072 131072 8 = 8589934592
    ∧ loadDDSTexture (envOf (ddsHeader DDS_SIGNATURE 131072 131072 1 FORMAT_CODE_DXT1)) =
      { ok := true, texture := 1,
        calls := [GLCall.genTextures 1, GLCall.bindTexture GL_TEXTURE_2D 1,
          GLCall.pixelStorei GL_UNPACK_ALIGNMENT 1,
          GLCall.compressedTexImage2D GL_TEXTURE_2D 0 GL_COMPRESSED_RGBA_S3TC_DXT1_EXT
            131072 131072 0 0 128,
          GLCall.bindTexture GL_TEXTURE_2D 0],
        error := none } := by
  decide

/-- C8, as stated, fails: a header with width 0 and height 0 and 2 levels
makes the loader upload a 0 x 0 level followed by a 1 x 1 level. -/
theorem loadDDSTexture_dims_grow_from_zero :
    uploadDims (loadDDSTexture (envOf (ddsHeader DDS_SIGNATURE 0 0 2 FORMAT_CODE_DXT1
        ++ List.replicate 8 0))).calls = [(0, 0), (1, 1)]
    ∧ ¬ List.Chain' (fun a b : Nat × Nat => b.1 ≤ a.1 ∧ b.2 ≤ a.2)
        (uploadDims (loadDDSTexture (envOf (ddsHeader DDS_SIGNATURE 0 0 2 FORMAT_CODE_DXT1
          ++ List.replicate 8 0))).calls) := by
  have e : uploadDims (loadDDSTexture (envOf (ddsHeader DDS_SIGNATURE 0 0 2 FORMAT_CODE_DXT1
      ++ List.replicate 8 0))).calls = [(0, 0), (1, 1)] := by
    decide
  refine ⟨e, ?_⟩
  rw [e]
  intro hc
  have hrel := List.Chain'.rel_head hc
  exact absurd hrel.1 (by decide)

/-- Witness of C8 (amended) on the file of the example. -/
theorem loadDDSTexture_dims_chain_witness :
    List.Chain' (fun a b : Nat × Nat => b.1 ≤ a.1)
      (uploadDims (loadDDSTexture (envOf (ddsHeader DDS_SIGNATURE 6 10 4 FORMAT_CODE_DXT1
        ++ List.replicate 80 0))).calls) :=
  (loadDDSTexture_dims_chain
    (envOf (ddsHeader DDS_SIGNATURE 6 10 4 FORMAT_CODE_DXT1 ++ List.replicate 80 0)) 10 6
    (by decide) (by decide) (by decide)).1 (by decide)

/-- Witness of C9: two 136-byte files with the same five header fields that
differ in a reserved header byte and in the payload are loaded alike. -/
theorem loadDDSTexture_header_only_witness :
    (ddsHeader DDS_SIGNATURE 4 4 1 FORMAT_CODE_DXT1 ++ List.replicate 8 0)
      ≠ ((ddsHeader DDS_SIGNATURE 4 4 1 FORMAT_CODE_DXT1).set 40 7 ++ List.replicate 8 255)
    ∧ loadDDSTexture (envOf (ddsHeader DDS_SIGNATURE 4 4 1 FORMAT_CODE_DXT1
        ++ List.replicate 8 0))
      = loadDDSTexture (envOf ((ddsHeader DDS_SIGNATURE 4 4 1 FORMAT_CODE_DXT1).set 40 7
        ++ List.replicate 8 255)) :=
  ⟨by decide,
   (loadDDSTexture_header_only
    (envOf (ddsHeader DDS_SIGNATURE 4 4 1 FORMAT_CODE_DXT1 ++ List.replicate 8 0))
    (envOf ((ddsHeader DDS_SIGNATURE 4 4 1 FORMAT_CODE_DXT1).set 40 7 ++ List.replicate 8 255))
    (by decide) (by decide) rfl rfl rfl (by decide) (by decide) (by decide) (by decide)
    (by decide)).2.2.2 rfl⟩
